import Mathlib

/-!
Verification of the BamQC MultiQC module (src/multiqc/modules/bamqc/bamqc.py).

The development shallowly embeds the module's core pipeline:
  * `parse_bamqc_log`  : tolerant parsing of one per-sample blob,
  * `find_outliers`    : cohort-wide pass/fail classification per metric,
  * the derived-metric passes and identity re-keying of `bamqc_general_stats`.

Python dictionaries are modelled as association lists with overwrite-on-insert
(`setKey`), numbers as rationals (`int`/`float` values; the intended
real-number semantics of the arithmetic), the square root inside
`statistics.stdev` as `Real.sqrt`, and every statement that can raise in
Python (`KeyError`, `IndexError`, `ValueError`) as an `Except String`
computation.  A per-sample record `self.bamqc_data[s_name]` is one Python
dict holding numeric metrics, the nested `statuses` dict, and the string
attributes `run name` / `index` written during re-keying; `SampleData`
splits that dict by value type into the fields `metrics`, `statuses`,
`attrs`.
-/

/-- Python `dict` assignment `d[k] = v`: overwrite the existing entry for `k`
in place, else append a new entry. -/
def setKey {α : Type} (d : List (String × α)) (k : String) (v : α) :
    List (String × α) :=
  match d with
  | [] => [(k, v)]
  | (k', v') :: rest => if k' = k then (k, v) :: rest else (k', v') :: setKey rest k v

/-- Python `dict` lookup `d[k]` (as an `Option`): first entry with key `k`. -/
def lookupKey {α : Type} (d : List (String × α)) (k : String) : Option α :=
  match d with
  | [] => none
  | (k', v') :: rest => if k' = k then some v' else lookupKey rest k

/-- Python `del d[k]`: remove the (first) entry with key `k`. -/
def delKey {α : Type} (d : List (String × α)) (k : String) : List (String × α) :=
  match d with
  | [] => []
  | (k', v') :: rest => if k' = k then rest else (k', v') :: delKey rest k

/-- Number of entries of a dict carrying the key `k`. -/
def countKey {α : Type} (d : List (String × α)) (k : String) : Nat :=
  match d with
  | [] => 0
  | (k', _) :: rest => (if k' = k then 1 else 0) + countKey rest k

/-- Split a character list at every occurrence of `sep` (Python
`str.split(sep)` for a one-character separator; every separator in the
source — `,`, `:`, `_` — is a single character). -/
def splitCharsAux (sep : Char) : List Char → List Char → List (List Char)
  | [], acc => [acc.reverse]
  | c :: rest, acc =>
      if c = sep then acc.reverse :: splitCharsAux sep rest []
      else splitCharsAux sep rest (c :: acc)

/-- Python `s.split(sep)` for a one-character separator. -/
def pySplit (sep : Char) (s : String) : List String :=
  (splitCharsAux sep s.data []).map String.mk

/-- Python `s.replace(c, "")` for a one-character pattern: remove every
occurrence of `c`. -/
def removeAll (c : Char) (s : String) : String :=
  String.mk (s.data.filter (fun x => x ≠ c))

/-- Python `c in s` for a one-character needle. -/
def pyContains (s : String) (c : Char) : Bool :=
  s.data.any (fun x => x = c)

/-- Python `property.lower().replace(' ', '_')`. -/
def pyLowerUnderscore (p : String) : String :=
  String.mk (p.data.map (fun ch => if ch.toLower = ' ' then '_' else ch.toLower))

/-- Numeric value of a list of decimal digits. -/
def digitsVal (ds : List Char) : Nat :=
  ds.foldl (fun n c => 10 * n + (c.toNat - 48)) 0

/-- Strip leading and trailing whitespace (Python `str.strip()`, as `int`
and `float` apply to their argument). -/
def pyStripChars (cs : List Char) : List Char :=
  ((cs.dropWhile Char.isWhitespace).reverse.dropWhile Char.isWhitespace).reverse

/-- Python `int(s)` (as used on the fragment values): optional surrounding
whitespace, an optional sign, then at least one decimal digit; anything else
raises `ValueError` (`none` here). -/
def pyInt (s : String) : Option Int :=
  match pyStripChars s.data with
  | '-' :: ds =>
      if ds ≠ [] ∧ ds.all Char.isDigit then some (-(digitsVal ds : Int)) else none
  | '+' :: ds =>
      if ds ≠ [] ∧ ds.all Char.isDigit then some ((digitsVal ds : Int)) else none
  | ds =>
      if ds ≠ [] ∧ ds.all Char.isDigit then some ((digitsVal ds : Int)) else none

/-- Python `float(s)` restricted to the plain decimal forms that occur on
the code path (the parser only calls `float` when the text contains a `.`):
optional whitespace and sign, digits around exactly one `.`, at least one
digit in total. -/
def pyFloat (s : String) : Option ℚ :=
  let signBody : ℚ × List Char :=
    match pyStripChars s.data with
    | '-' :: ds => (-1, ds)
    | '+' :: ds => (1, ds)
    | ds => (1, ds)
  match splitCharsAux '.' signBody.2 [] with
  | [a, b] =>
      if (a ++ b) ≠ [] ∧ (a ++ b).all Char.isDigit then
        some (signBody.1 * ((digitsVal a : ℚ) + (digitsVal b : ℚ) / (10 : ℚ) ^ b.length))
      else none
  | _ => none

/-- Python `str.zfill(w)` on the unsigned strings in play: left-pad with `'0'`
up to width `w`. -/
def zfill (s : String) (w : Nat) : String :=
  if s.length ≥ w then s
  else String.mk (List.replicate (w - s.length) '0') ++ s

/-- One per-sample record: the numeric metrics dict, the nested `statuses`
dict, and the string attributes (`run name`, `index`) written during identity
re-keying.  In the source these live together in the single Python dict
`self.bamqc_data[s_name]`. -/
structure SampleData where
  metrics : List (String × ℚ)
  statuses : List (String × String)
  attrs : List (String × String)
deriving Repr, DecidableEq

/-- The empty record `dict()` created for each sample. -/
def emptySample : SampleData := ⟨[], [], []⟩

/-- The `property_list` of `parse_bamqc_log` (nine metrics, with `target size`). -/
def propertyList : List String :=
  ["reads on target", "reads per start point", "total reads", "paired reads",
   "mapped reads", "aligned bases", "soft clip bases", "insert mean", "target size"]

/-- The identity-field keys recognized by the parser's `elif` chain. -/
def identityKeys : List String :=
  ["library", "run name", "barcode", "group id", "lane"]

/-- Processing of one comma-separated fragment `s` by the loop body of
`parse_bamqc_log` (source lines 107-151).  State: the sample's record and its
`sample_name_info` entry.  `s.split(':')[1]` out of range is an `IndexError`;
a failing `int`/`float` conversion is a `ValueError`. -/
def parseFragment (st : SampleData × List (String × String)) (s : String) :
    Except String (SampleData × List (String × String)) :=
  let parts := pySplit ':' s
  let property := removeAll '"' (removeAll '\x7b' (parts.headD ""))
  if property ∈ propertyList then
    match parts[1]? with
    | none => .error "IndexError"
    | some raw =>
        let value := removeAll '"' raw
        if pyContains value '.' then
          match pyFloat value with
          | none => .error "ValueError: float"
          | some q => .ok ({st.1 with metrics := setKey st.1.metrics property q}, st.2)
        else
          match pyInt value with
          | none => .error "ValueError: int"
          | some n => .ok ({st.1 with metrics := setKey st.1.metrics property (n : ℚ)}, st.2)
  else if property = "library" then
    match parts[1]? with
    | none => .error "IndexError"
    | some raw => .ok (st.1, setKey st.2 "library" (removeAll '"' raw))
  else if property = "run name" then
    match parts[1]? with
    | none => .error "IndexError"
    | some raw => .ok (st.1, setKey st.2 "run name" (removeAll '"' raw))
  else if property = "barcode" then
    match parts[1]? with
    | none => .error "IndexError"
    | some raw => .ok (st.1, setKey st.2 "index" (removeAll '"' raw))
  else if property = "group id" then
    match parts[1]? with
    | none => .error "IndexError"
    | some raw => .ok (st.1, setKey st.2 "group id" (removeAll '"' raw))
  else if property = "lane" then
    match parts[1]? with
    | none => .error "IndexError"
    | some raw => .ok (st.1, setKey st.2 "lane" raw)
  else
    .ok st

/-- Fold of `parseFragment` over a fragment list. -/
def parseFragments (st : SampleData × List (String × String)) :
    List String → Except String (SampleData × List (String × String))
  | [] => .ok st
  | s :: rest =>
      match parseFragment st s with
      | .error e => .error e
      | .ok st' => parseFragments st' rest

/-- Model of `parse_bamqc_log` for one sample (source lines 89-156): split the blob on
`,`, process each fragment, then emit a missing-metric diagnostic for each
`property_list` entry absent from the record.  Returns the sample's record,
its `sample_name_info` entry, and the diagnostics. -/
def parse_bamqc_log (content : String) :
    Except String (SampleData × List (String × String) × List String) :=
  match parseFragments (emptySample, []) (pySplit ',' content) with
  | .error e => .error e
  | .ok (rec, info) =>
      .ok (rec, info,
        (propertyList.filter (fun p => (lookupKey rec.metrics p).isNone)).map
          (fun p => "Data for " ++ p ++ " is missing!"))

/-- Model of `statistics.mean`: arithmetic mean (exact; the empty case, where Python
raises, is never consulted by the embedding). -/
def Lmean (xs : List ℚ) : ℚ := xs.sum / (xs.length : ℚ)

/-- Bessel-corrected sample variance, the square of `statistics.stdev`. -/
def sampleVariance (xs : List ℚ) : ℚ :=
  (xs.map (fun x => (x - Lmean xs) ^ 2)).sum / ((xs.length : ℚ) - 1)

/-- Model of `statistics.stdev`: square root of the Bessel-corrected sample variance. -/
noncomputable def Lstdev (xs : List ℚ) : ℝ :=
  Real.sqrt ((sampleVariance xs : ℚ) : ℝ)

/-- The pass/fail classification of one value (source lines 182-185):
`fail` when `s_reads > mean + 2 * stdev or s_reads < (mean - 2 * stdev)`,
else `pass`. -/
noncomputable def classifyStatus (mean : ℚ) (stdev : ℝ) (v : ℚ) : String :=
  if ((v : ℝ) > (mean : ℝ) + 2 * stdev ∨ (v : ℝ) < (mean : ℝ) - 2 * stdev) then
    "fail"
  else
    "pass"

/-- The `property_list` of `find_outliers` (source lines 163-164): eight metrics,
without `target size`. -/
def outlierPropertyList : List String :=
  ["reads on target", "reads per start point", "total reads", "paired reads",
   "mapped reads", "aligned bases", "soft clip bases", "insert mean"]

/-- The `reads` gathering loop of `find_outliers` (source lines 167-168):
`reads.append(self.bamqc_data[s_name][property])` for every sample; a sample
without the metric raises `KeyError`. -/
def gather (cohort : List (String × SampleData)) (p : String) :
    Except String (List ℚ) :=
  match cohort with
  | [] => .ok []
  | sr :: rest =>
      match lookupKey sr.2.metrics p with
      | none => .error "KeyError"
      | some v =>
          match gather rest p with
          | .error e => .error e
          | .ok vs => .ok (v :: vs)

/-- The value sequence `gather` produces when it succeeds. -/
def gatherVals (cohort : List (String × SampleData)) (p : String) : List ℚ :=
  cohort.map (fun sr => (lookupKey sr.2.metrics p).getD 0)

/-- The classification loop of `find_outliers` (source lines 180-185): write
one status per sample for metric `p`; the metric lookup can raise `KeyError`. -/
noncomputable def classifyMetric (mean : ℚ) (stdev : ℝ) (p : String) :
    List (String × SampleData) → Except String (List (String × SampleData))
  | [] => .ok []
  | (s, r) :: rest =>
      match lookupKey r.metrics p with
      | none => .error "KeyError"
      | some v =>
          match classifyMetric mean stdev p rest with
          | .error e => .error e
          | .ok rest' =>
              .ok ((s, {r with statuses := setKey r.statuses p (classifyStatus mean stdev v)}) :: rest')

/-- The mutable state of `find_outliers`: the local variables `mean` and
`stdev` (which survive across metrics when the statistics computation
raises), the cohort being annotated, `self.bamqc_stats_warning`, and the
emitted log warnings. -/
structure OutlierState where
  mean : ℚ
  stdev : ℝ
  cohort : List (String × SampleData)
  warnings : List (String × Bool)
  diags : List String

/-- One iteration of the outer metric loop of `find_outliers` (source lines
165-192): gather the metric across the cohort, recompute `mean`/`stdev`
(where `statistics.mean` raises only on an empty list and `statistics.stdev`
on fewer than two points, each leaving the previous value in place and
logging a warning), classify every sample, and record the
`bamqc_stats_warning` flag `(mean - 2 * stdev) < 0`. -/
noncomputable def outlierStep (st : OutlierState) (p : String) :
    Except String OutlierState :=
  match gather st.cohort p with
  | .error e => .error e
  | .ok reads =>
      let diags :=
        if reads.length < 2 then
          st.diags ++ ["Not enough data is available to calculate mean and stdev!"]
        else st.diags
      let mean := if reads.length = 0 then st.mean else Lmean reads
      let stdev := if reads.length < 2 then st.stdev else Lstdev reads
      match classifyMetric mean stdev p st.cohort with
      | .error e => .error e
      | .ok cohort' =>
          .ok ⟨mean, stdev, cohort',
               setKey st.warnings (pyLowerUnderscore p)
                 (if (mean : ℝ) - 2 * stdev < 0 then true else false),
               diags⟩

/-- Fold of `outlierStep` over the metric list. -/
noncomputable def outlierFold (st : OutlierState) :
    List String → Except String OutlierState
  | [] => .ok st
  | p :: ps =>
      match outlierStep st p with
      | .error e => .error e
      | .ok st' => outlierFold st' ps

/-- Model of `find_outliers` (source lines 159-192): starting from `mean = 0`,
`stdev = 0`, process every metric of `outlierPropertyList`; the result is the
annotated cohort, `self.bamqc_stats_warning`, and the warnings logged.  Any
`KeyError` aborts the whole method. -/
noncomputable def find_outliers (cohort : List (String × SampleData)) :
    Except String (List (String × SampleData) × List (String × Bool) × List String) :=
  match outlierFold ⟨0, 0, cohort, [], []⟩ outlierPropertyList with
  | .error e => .error e
  | .ok st => .ok (st.cohort, st.warnings, st.diags)

/-- The map-percent loop of `bamqc_general_stats` (source lines 203-209):
`map percent = (mapped reads / total reads) * 100`, with `total reads`
replaced by 1 when it is 0; metric lookups can raise `KeyError`. -/
def mapPercentPass : List (String × SampleData) → Except String (List (String × SampleData))
  | [] => .ok []
  | (s, r) :: rest =>
      match lookupKey r.metrics "mapped reads" with
      | none => .error "KeyError"
      | some mapped =>
          match lookupKey r.metrics "total reads" with
          | none => .error "KeyError"
          | some total =>
              let total := if total = 0 then 1 else total
              match mapPercentPass rest with
              | .error e => .error e
              | .ok rest' =>
                  .ok ((s, {r with metrics := setKey r.metrics "map percent" ((mapped / total) * 100)}) :: rest')

/-- The on-target-percent loop of `bamqc_general_stats` (source lines
214-218): `on target percent = (reads on target / mapped_reads) * 100` where
`mapped_reads = self.bamqc_data[s_name]['mapped reads'] or 1`. -/
def onTargetPass : List (String × SampleData) → Except String (List (String × SampleData))
  | [] => .ok []
  | (s, r) :: rest =>
      match lookupKey r.metrics "mapped reads" with
      | none => .error "KeyError"
      | some mapped =>
          let mapped := if mapped = 0 then 1 else mapped
          match lookupKey r.metrics "reads on target" with
          | none => .error "KeyError"
          | some readsOnTarget =>
              match onTargetPass rest with
              | .error e => .error e
              | .ok rest' =>
                  .ok ((s, {r with metrics := setKey r.metrics "on target percent" ((readsOnTarget / mapped) * 100)}) :: rest')

/-- The coverage loop of `bamqc_general_stats` (source lines 225-232):
`est_yield = (aligned bases * (on target percent / 100)) / reads_per_start_point`
and `coverage = est_yield / target_size`, with `target size` and
`reads per start point` each replaced by 1 when 0. -/
def coveragePass : List (String × SampleData) → Except String (List (String × SampleData))
  | [] => .ok []
  | (s, r) :: rest =>
      match lookupKey r.metrics "target size" with
      | none => .error "KeyError"
      | some targetSize =>
          let targetSize := if targetSize = 0 then 1 else targetSize
          match lookupKey r.metrics "aligned bases" with
          | none => .error "KeyError"
          | some alignedBases =>
              match lookupKey r.metrics "on target percent" with
              | none => .error "KeyError"
              | some onTargetPercent =>
                  match lookupKey r.metrics "reads per start point" with
                  | none => .error "KeyError"
                  | some readsPerStartPoint =>
                      let readsPerStartPoint := if readsPerStartPoint = 0 then 1 else readsPerStartPoint
                      let estYield := (alignedBases * (onTargetPercent / 100)) / readsPerStartPoint
                      match coveragePass rest with
                      | .error e => .error e
                      | .ok rest' =>
                          .ok ((s, {r with metrics := setKey r.metrics "coverage" (estYield / targetSize)}) :: rest')

/-- The three derived-metric loops of `bamqc_general_stats`, in source order. -/
def computeDerivedAll (cohort : List (String × SampleData)) :
    Except String (List (String × SampleData)) :=
  match mapPercentPass cohort with
  | .error e => .error e
  | .ok c1 =>
      match onTargetPass c1 with
      | .error e => .error e
      | .ok c2 => coveragePass c2

/-- The display-identity construction of `bamqc_general_stats` (source lines
240-245): `date = run name.split('_')[0]`,
`lane_token = "L" + str(lane).zfill(3)`, then
`library + "_" + group id + "_" + date + "_" + lane_token` when a group id is
present, else `library + "_" + date + "_" + lane_token`.  A missing
`run name`, `lane`, or `library` raises `KeyError` (in that evaluation
order). -/
def sampleIdentity (m : List (String × String)) : Except String String :=
  match lookupKey m "run name" with
  | none => .error "KeyError: run name"
  | some runName =>
      match lookupKey m "lane" with
      | none => .error "KeyError: lane"
      | some lane =>
          let date := (pySplit '_' runName).headD ""
          let laneToken := "L" ++ zfill lane 3
          match lookupKey m "group id" with
          | some groupId =>
              match lookupKey m "library" with
              | none => .error "KeyError: library"
              | some library => .ok (library ++ "_" ++ groupId ++ "_" ++ date ++ "_" ++ laneToken)
          | none =>
              match lookupKey m "library" with
              | none => .error "KeyError: library"
              | some library => .ok (library ++ "_" ++ date ++ "_" ++ laneToken)

/-- One iteration of the re-keying loop of `bamqc_general_stats` (source
lines 239-249), in a heap model: `stats_data` maps display names to record
references (indices into the shared `store`), so that
`stats_data[sample_name] = stats_data[s_name]` copies a reference, not the
record.  The iteration renames the entry and then writes the `run name` and
`index` attributes through the reference, mutating the shared record. -/
def rekeyStep (info : List (String × List (String × String)))
    (st : List (String × Nat) × List SampleData) (sname : String) :
    Except String (List (String × Nat) × List SampleData) :=
  match lookupKey info sname with
  | none => .error "KeyError: sample_name_info"
  | some m =>
      match sampleIdentity m with
      | .error e => .error e
      | .ok sampleName =>
          match lookupKey st.1 sname with
          | none => .error "KeyError: stats_data"
          | some ref =>
              let statsData := delKey (setKey st.1 sampleName ref) sname
              match lookupKey statsData sampleName with
              | none => .error "KeyError: stats_data rekeyed"
              | some ref2 =>
                  match lookupKey m "run name" with
                  | none => .error "KeyError: run name"
                  | some runName =>
                      match st.2[ref2]? with
                      | none => .error "IndexError: store"
                      | some record =>
                          let store1 := st.2.set ref2 {record with attrs := setKey record.attrs "run name" runName}
                          match lookupKey m "index" with
                          | none => .error "KeyError: index"
                          | some idx =>
                              match store1[ref2]? with
                              | none => .error "IndexError: store"
                              | some record1 =>
                                  .ok (statsData, store1.set ref2 {record1 with attrs := setKey record1.attrs "index" idx})

/-- Fold of `rekeyStep` over the sample names. -/
def rekeyFold (info : List (String × List (String × String)))
    (st : List (String × Nat) × List SampleData) :
    List String → Except String (List (String × Nat) × List SampleData)
  | [] => .ok st
  | s :: rest =>
      match rekeyStep info st s with
      | .error e => .error e
      | .ok st' => rekeyFold info st' rest

/-- Model of `bamqc_general_stats` (source lines 194-249, up to table construction):
run the three derived-metric loops, take the shallow copy
`stats_data = dict(self.bamqc_data)` — modelled by numbering the records
(the shared `store`) and giving both `self.bamqc_data` and `stats_data` maps
from names to record references — and run the re-keying loop over
`self.bamqc_data.keys()`.  Returns the untouched `self.bamqc_data` reference
map, the re-keyed `stats_data` reference map, and the final shared store. -/
def bamqc_general_stats (data : List (String × SampleData))
    (info : List (String × List (String × String))) :
    Except String (List (String × Nat) × List (String × Nat) × List SampleData) :=
  match computeDerivedAll data with
  | .error e => .error e
  | .ok cohort =>
      let bamqcRefs := cohort.enum.map (fun x => (x.2.1, x.1))
      let store := cohort.map Prod.snd
      match rekeyFold info (bamqcRefs, store) (cohort.map Prod.fst) with
      | .error e => .error e
      | .ok (statsData, store') => .ok (bamqcRefs, statsData, store')

/-- Well-formedness of one fragment: whenever its normalized key is
recognized, the fragment has a `:` and (for numeric keys) a value accepted by
the `int`/`float` conversion.  Exactly the fragments on which `parseFragment`
cannot raise. -/
def fragmentOK (s : String) : Bool :=
  let parts := pySplit ':' s
  let property := removeAll '"' (removeAll '\x7b' (parts.headD ""))
  if property ∈ propertyList then
    match parts[1]? with
    | none => false
    | some raw =>
        let value := removeAll '"' raw
        if pyContains value '.' then (pyFloat value).isSome else (pyInt value).isSome
  else if property ∈ identityKeys then (parts[1]?).isSome
  else true

/-- The status `find_outliers` assigns to record `r` for metric `p`, given
the cohort whose values the statistics are computed over (the case of at
least two samples, where `statistics.mean`/`statistics.stdev` succeed). -/
noncomputable def statusFor (cohort : List (String × SampleData)) (p : String)
    (r : SampleData) : String :=
  classifyStatus (Lmean (gatherVals cohort p)) (Lstdev (gatherVals cohort p))
    ((lookupKey r.metrics p).getD 0)

/-- Accumulated statuses dict after a list of per-metric `setKey` writes with
values `g`. -/
def foldStatuses (g : String → String) (ps : List String) (r : SampleData) : SampleData :=
  {r with statuses := ps.foldl (fun acc q => setKey acc q (g q)) r.statuses}

/-- Record update performed by the classification loop for one metric. -/
noncomputable def updRecord (mean : ℚ) (stdev : ℝ) (p : String) (r : SampleData) :
    SampleData :=
  {r with statuses := setKey r.statuses p (classifyStatus mean stdev ((lookupKey r.metrics p).getD 0))}

/-- Per-record effect of the map-percent loop. -/
def mapPercentRecord (r : SampleData) : SampleData :=
  let mapped := (lookupKey r.metrics "mapped reads").getD 0
  let total := (lookupKey r.metrics "total reads").getD 0
  let total := if total = 0 then 1 else total
  {r with metrics := setKey r.metrics "map percent" ((mapped / total) * 100)}

/-- Per-record effect of the on-target-percent loop. -/
def onTargetRecord (r : SampleData) : SampleData :=
  let mapped := (lookupKey r.metrics "mapped reads").getD 0
  let mapped := if mapped = 0 then 1 else mapped
  let readsOnTarget := (lookupKey r.metrics "reads on target").getD 0
  {r with metrics := setKey r.metrics "on target percent" ((readsOnTarget / mapped) * 100)}

/-- Per-record effect of the coverage loop. -/
def coverageRecord (r : SampleData) : SampleData :=
  let targetSize := (lookupKey r.metrics "target size").getD 0
  let targetSize := if targetSize = 0 then 1 else targetSize
  let alignedBases := (lookupKey r.metrics "aligned bases").getD 0
  let onTargetPercent := (lookupKey r.metrics "on target percent").getD 0 / 100
  let readsPerStartPoint := (lookupKey r.metrics "reads per start point").getD 0
  let readsPerStartPoint := if readsPerStartPoint = 0 then 1 else readsPerStartPoint
  let estYield := (alignedBases * onTargetPercent) / readsPerStartPoint
  {r with metrics := setKey r.metrics "coverage" (estYield / targetSize)}

/-- Identity computed for sample `n` from the metadata side table. -/
def infoIdentity (info : List (String × List (String × String))) (n : String) :
    Except String String :=
  match lookupKey info n with
  | none => .error "KeyError: sample_name_info"
  | some m => sampleIdentity m

/-- Identity of sample `n`, defaulting to `""` on failure (used only under
hypotheses that make it succeed). -/
def idOf (info : List (String × List (String × String))) (n : String) : String :=
  match infoIdentity info n with
  | .ok v => v
  | .error _ => ""

/-- Metadata field `k` of sample `n`. -/
def infoField (info : List (String × List (String × String))) (n k : String) :
    Option String :=
  (lookupKey info n).bind (fun m => lookupKey m k)

/-! ## Concrete inputs for witnesses and counterexamples -/

/-- A record carrying every metric of `propertyList` (value 10, except
`target size` 100). -/
def fullRecord : SampleData :=
  ⟨[("reads on target", 10), ("reads per start point", 10), ("total reads", 10),
    ("paired reads", 10), ("mapped reads", 10), ("aligned bases", 10),
    ("soft clip bases", 10), ("insert mean", 10), ("target size", 100)], [], []⟩

/-- A two-sample cohort with identical records. -/
def pairCohort : List (String × SampleData) := [("A", fullRecord), ("B", fullRecord)]

/-- A record lacking the required metric `insert mean`. -/
def missingInsertMeanRecord : SampleData :=
  ⟨[("reads on target", 10), ("reads per start point", 10), ("total reads", 10),
    ("paired reads", 10), ("mapped reads", 10), ("aligned bases", 10),
    ("soft clip bases", 10), ("target size", 100)], [], []⟩

/-- A complete metadata record without a group id. -/
def fullInfoNoGroup : List (String × String) :=
  [("library", "LIB1"), ("run name", "200101_RUN_X"), ("lane", "3"), ("index", "ACGT")]

/-- A complete metadata record with a group id. -/
def fullInfoGroup : List (String × String) :=
  [("library", "LIB1"), ("run name", "200101_RUN_X"), ("lane", "3"),
   ("index", "ACGT"), ("group id", "GRP")]

/-- A record with `mapped reads` 50 and `total reads` 0 (and zero
`target size`), exercising the zero-denominator substitutions. -/
def zeroTotalRecord : SampleData :=
  ⟨[("reads on target", 10), ("reads per start point", 2), ("total reads", 0),
    ("paired reads", 8), ("mapped reads", 50), ("aligned bases", 100),
    ("soft clip bases", 3), ("insert mean", 150), ("target size", 0)], [], []⟩

/-- Presence of the six raw metrics the derived computations read. -/
def derivedReady (r : SampleData) : Prop :=
  (lookupKey r.metrics "mapped reads").isSome ∧
  (lookupKey r.metrics "total reads").isSome ∧
  (lookupKey r.metrics "reads on target").isSome ∧
  (lookupKey r.metrics "aligned bases").isSome ∧
  (lookupKey r.metrics "reads per start point").isSome ∧
  (lookupKey r.metrics "target size").isSome

instance (r : SampleData) : Decidable (derivedReady r) := by
  unfold derivedReady
  infer_instance

/-- Attribute writes performed on the shared record during re-keying:
`run name` then `index`. -/
def writeAttrs (rnv idxv : String) (rec : SampleData) : SampleData :=
  {rec with attrs := setKey (setKey rec.attrs "run name" rnv) "index" idxv}

/-! ## Dictionary lemmas -/

theorem lookupKey_setKey_self {α : Type} (d : List (String × α)) (k : String) (v : α) :
    lookupKey (setKey d k v) k = some v := by
  induction d with
  | nil => simp [setKey, lookupKey]
  | cons hd tl ih =>
      by_cases h : hd.1 = k
      · simp [setKey, lookupKey, h]
      · simp [setKey, lookupKey, h, ih]

theorem lookupKey_setKey_ne {α : Type} (d : List (String × α)) (k k' : String) (v : α)
    (h : k' ≠ k) : lookupKey (setKey d k v) k' = lookupKey d k' := by
  have hk : ¬(k = k') := fun e => h e.symm
  induction d with
  | nil => simp [setKey, lookupKey, hk]
  | cons hd tl ih =>
      by_cases h1 : hd.1 = k
      · have h2 : ¬(hd.1 = k') := by rw [h1]; exact hk
        simp [setKey, lookupKey, h1, hk, h2]
      · by_cases h2 : hd.1 = k' <;> simp [setKey, lookupKey, h1, h2, hk, h, ih]

theorem lookupKey_delKey_ne {α : Type} (d : List (String × α)) (k k' : String)
    (h : k' ≠ k) : lookupKey (delKey d k) k' = lookupKey d k' := by
  have hk : ¬(k = k') := fun e => h e.symm
  induction d with
  | nil => simp [delKey, lookupKey]
  | cons hd tl ih =>
      by_cases h1 : hd.1 = k
      · have h2 : ¬(hd.1 = k') := by rw [h1]; exact hk
        simp [delKey, lookupKey, h1, h2, hk]
      · by_cases h2 : hd.1 = k' <;> simp [delKey, lookupKey, h1, h2, hk, h, ih]

theorem countKey_setKey_self {α : Type} (d : List (String × α)) (k : String) (v : α) :
    countKey (setKey d k v) k = if countKey d k = 0 then 1 else countKey d k := by
  induction d with
  | nil => simp [setKey, countKey]
  | cons hd tl ih =>
      by_cases h : hd.1 = k
      · simp [setKey, countKey, h]
      · simp only [setKey, countKey, h, if_neg h, if_false]
        simpa [countKey, h] using ih

theorem countKey_setKey_ne {α : Type} (d : List (String × α)) (k k' : String) (v : α)
    (h : k' ≠ k) : countKey (setKey d k v) k' = countKey d k' := by
  have hk : ¬(k = k') := fun e => h e.symm
  induction d with
  | nil => simp [setKey, countKey, hk]
  | cons hd tl ih =>
      by_cases h1 : hd.1 = k
      · have h2 : ¬(hd.1 = k') := by rw [h1]; exact hk
        simp [setKey, countKey, h1, hk, h2]
      · by_cases h2 : hd.1 = k' <;> simp [setKey, countKey, h1, h2, hk, h, ih]

theorem lookupKey_foldl_setKey_not_mem {α : Type} (g : String → α) (ps : List String)
    (acc : List (String × α)) (p : String) (hp : p ∉ ps) :
    lookupKey (ps.foldl (fun a q => setKey a q (g q)) acc) p = lookupKey acc p := by
  induction ps generalizing acc with
  | nil => rfl
  | cons q qs ih =>
      simp only [List.foldl_cons]
      have hpq : p ≠ q := fun e => hp (e ▸ List.mem_cons_self q qs)
      rw [ih _ (fun hmem => hp (List.mem_cons_of_mem q hmem)),
        lookupKey_setKey_ne _ _ _ _ hpq]

theorem lookupKey_foldl_setKey_mem {α : Type} (g : String → α) (ps : List String)
    (acc : List (String × α)) (p : String) (hp : p ∈ ps) (hnd : ps.Nodup) :
    lookupKey (ps.foldl (fun a q => setKey a q (g q)) acc) p = some (g p) := by
  induction ps generalizing acc with
  | nil => cases hp
  | cons q qs ih =>
      simp only [List.foldl_cons]
      rcases List.mem_cons.mp hp with he | hm
      · subst he
        rw [lookupKey_foldl_setKey_not_mem _ _ _ _ (List.nodup_cons.mp hnd).1,
          lookupKey_setKey_self]
      · exact ih _ hm (List.nodup_cons.mp hnd).2

theorem countKey_foldl_setKey {α : Type} (g : String → α) (ps : List String)
    (acc : List (String × α)) (p : String) (h : countKey acc p ≤ 1) :
    countKey (ps.foldl (fun a q => setKey a q (g q)) acc) p ≤ 1 ∧
      ((p ∈ ps ∨ countKey acc p = 1) →
        countKey (ps.foldl (fun a q => setKey a q (g q)) acc) p = 1) := by
  induction ps generalizing acc with
  | nil =>
      refine ⟨h, ?_⟩
      rintro (hmem | hone)
      · cases hmem
      · exact hone
  | cons q qs ih =>
      simp only [List.foldl_cons]
      by_cases hq : q = p
      · subst hq
        have hcnt : countKey (setKey acc q (g q)) q = 1 := by
          rw [countKey_setKey_self]
          rcases Nat.le_one_iff_eq_zero_or_eq_one.mp h with h0 | h1
          · simp [h0]
          · simp [h1]
        have := ih (setKey acc q (g q)) (by omega)
        refine ⟨this.1, fun _ => this.2 (Or.inr hcnt)⟩
      · have hcnt : countKey (setKey acc q (g q)) p = countKey acc p :=
          countKey_setKey_ne _ _ _ _ (fun e => hq e.symm)
        have := ih (setKey acc q (g q)) (by omega)
        refine ⟨this.1, ?_⟩
        rintro (hmem | hone)
        · rcases List.mem_cons.mp hmem with he | hm
          · exact absurd he.symm hq
          · exact this.2 (Or.inl hm)
        · exact this.2 (Or.inr (by omega))

/-! ## Classification lemmas -/

theorem classifyStatus_eq_fail_iff (mean : ℚ) (stdev : ℝ) (v : ℚ) :
    classifyStatus mean stdev v = "fail" ↔
      ((v : ℝ) > (mean : ℝ) + 2 * stdev ∨ (v : ℝ) < (mean : ℝ) - 2 * stdev) := by
  unfold classifyStatus
  split
  · next hc => simpa using hc
  · next hc =>
      constructor
      · intro he
        exact absurd he (by decide)
      · intro hcond
        exact absurd hcond hc

theorem classifyStatus_eq_pass_of_not (mean : ℚ) (stdev : ℝ) (v : ℚ)
    (h : ¬((v : ℝ) > (mean : ℝ) + 2 * stdev ∨ (v : ℝ) < (mean : ℝ) - 2 * stdev)) :
    classifyStatus mean stdev v = "pass" := by
  unfold classifyStatus
  exact if_neg h

theorem classifyStatus_pass_or_fail (mean : ℚ) (stdev : ℝ) (v : ℚ) :
    classifyStatus mean stdev v = "pass" ∨ classifyStatus mean stdev v = "fail" := by
  unfold classifyStatus
  split
  · exact Or.inr rfl
  · exact Or.inl rfl

/-! ## Gathering and classification loop characterizations -/

theorem gatherVals_length (c : List (String × SampleData)) (p : String) :
    (gatherVals c p).length = c.length := by
  simp [gatherVals]

theorem gather_ok_of_all (c : List (String × SampleData)) (p : String)
    (h : ∀ sr ∈ c, (lookupKey sr.2.metrics p).isSome) :
    gather c p = .ok (gatherVals c p) := by
  induction c with
  | nil => rfl
  | cons sr rest ih =>
      obtain ⟨v, hv⟩ := Option.isSome_iff_exists.mp (h sr (List.mem_cons_self _ _))
      have ih' := ih (fun x hx => h x (List.mem_cons_of_mem _ hx))
      simp [gather, hv, ih', gatherVals]

theorem gather_ok_inv (c : List (String × SampleData)) (p : String) (vs : List ℚ)
    (h : gather c p = .ok vs) :
    (∀ sr ∈ c, (lookupKey sr.2.metrics p).isSome) ∧ vs = gatherVals c p := by
  induction c generalizing vs with
  | nil =>
      simp only [gather] at h
      cases h
      exact ⟨by simp, rfl⟩
  | cons sr rest ih =>
      simp only [gather] at h
      cases hv : lookupKey sr.2.metrics p with
      | none => rw [hv] at h; cases h
      | some v =>
          rw [hv] at h
          cases hg : gather rest p with
          | error e => rw [hg] at h; cases h
          | ok vs' =>
              rw [hg] at h
              cases h
              obtain ⟨hall, hvs⟩ := ih vs' hg
              constructor
              · intro x hx
                rcases List.mem_cons.mp hx with he | hm
                · subst he; simp [hv]
                · exact hall x hm
              · simp [gatherVals, hv, hvs]

theorem classifyMetric_ok_of_all (mean : ℚ) (stdev : ℝ) (p : String)
    (c : List (String × SampleData))
    (h : ∀ sr ∈ c, (lookupKey sr.2.metrics p).isSome) :
    classifyMetric mean stdev p c =
      .ok (c.map (fun sr => (sr.1, updRecord mean stdev p sr.2))) := by
  induction c with
  | nil => rfl
  | cons sr rest ih =>
      obtain ⟨s, r⟩ := sr
      obtain ⟨v, hv⟩ := Option.isSome_iff_exists.mp (h (s, r) (List.mem_cons_self _ _))
      have ih' := ih (fun x hx => h x (List.mem_cons_of_mem _ hx))
      simp [classifyMetric, hv, ih', updRecord]

theorem classifyMetric_ok_inv (mean : ℚ) (stdev : ℝ) (p : String)
    (c : List (String × SampleData)) (out : List (String × SampleData))
    (h : classifyMetric mean stdev p c = .ok out) :
    (∀ sr ∈ c, (lookupKey sr.2.metrics p).isSome) ∧
      out = c.map (fun sr => (sr.1, updRecord mean stdev p sr.2)) := by
  induction c generalizing out with
  | nil =>
      simp only [classifyMetric] at h
      cases h
      exact ⟨by simp, rfl⟩
  | cons sr rest ih =>
      obtain ⟨s, r⟩ := sr
      simp only [classifyMetric] at h
      cases hv : lookupKey r.metrics p with
      | none => rw [hv] at h; cases h
      | some v =>
          rw [hv] at h
          cases hg : classifyMetric mean stdev p rest with
          | error e => rw [hg] at h; cases h
          | ok rest' =>
              rw [hg] at h
              cases h
              obtain ⟨hall, hrest⟩ := ih rest' hg
              constructor
              · intro x hx
                rcases List.mem_cons.mp hx with he | hm
                · subst he; simp [hv]
                · exact hall x hm
              · simp [hrest, updRecord, hv]

theorem gatherVals_map_upd (c : List (String × SampleData)) (m : ℚ) (s : ℝ)
    (p q : String) :
    gatherVals (c.map (fun sr => (sr.1, updRecord m s p sr.2))) q = gatherVals c q := by
  simp only [gatherVals, List.map_map]
  rfl

theorem statusFor_updRecord (c : List (String × SampleData)) (m : ℚ) (s : ℝ)
    (p q : String) (r : SampleData) :
    statusFor (c.map (fun sr => (sr.1, updRecord m s p sr.2))) q (updRecord m s p r) =
      statusFor c q r := by
  unfold statusFor
  rw [gatherVals_map_upd]
  rfl

theorem outlierStep_ok_char (st : OutlierState) (p : String)
    (hall : ∀ sr ∈ st.cohort, (lookupKey sr.2.metrics p).isSome)
    (hn : 2 ≤ st.cohort.length) :
    outlierStep st p = .ok
      ⟨Lmean (gatherVals st.cohort p), Lstdev (gatherVals st.cohort p),
       st.cohort.map (fun sr => (sr.1,
         updRecord (Lmean (gatherVals st.cohort p)) (Lstdev (gatherVals st.cohort p)) p sr.2)),
       setKey st.warnings (pyLowerUnderscore p)
         (if (Lmean (gatherVals st.cohort p) : ℝ) - 2 * Lstdev (gatherVals st.cohort p) < 0
          then true else false),
       st.diags⟩ := by
  have hg := gather_ok_of_all st.cohort p hall
  have hlen : (gatherVals st.cohort p).length = st.cohort.length := gatherVals_length _ _
  have h2 : ¬((gatherVals st.cohort p).length < 2) := by omega
  have h0 : ¬((gatherVals st.cohort p).length = 0) := by omega
  have hcm := classifyMetric_ok_of_all (Lmean (gatherVals st.cohort p))
    (Lstdev (gatherVals st.cohort p)) p st.cohort hall
  simp only [outlierStep, hg, if_neg h2, if_neg h0, hcm]

theorem map_fold_statuses_step (c : List (String × SampleData)) (m : ℚ) (s : ℝ)
    (p : String) (ps : List String) (hm : m = Lmean (gatherVals c p))
    (hs : s = Lstdev (gatherVals c p)) :
    (c.map (fun sr => (sr.1, updRecord m s p sr.2))).map
        (fun sr => (sr.1, foldStatuses
          (fun q => statusFor (c.map (fun x => (x.1, updRecord m s p x.2))) q sr.2) ps sr.2))
      = c.map (fun sr => (sr.1, foldStatuses (fun q => statusFor c q sr.2) (p :: ps) sr.2)) := by
  subst hm hs
  rw [List.map_map]
  apply List.map_congr_left
  intro sr _
  simp only [Function.comp, foldStatuses, List.foldl_cons, statusFor_updRecord]
  rfl

theorem outlierFold_ok_char (ps : List String) (st : OutlierState)
    (hall : ∀ sr ∈ st.cohort, ∀ p ∈ ps, (lookupKey sr.2.metrics p).isSome)
    (hn : 2 ≤ st.cohort.length) :
    ∃ m' s' w', outlierFold st ps = .ok ⟨m', s',
      st.cohort.map (fun sr => (sr.1, foldStatuses (fun q => statusFor st.cohort q sr.2) ps sr.2)),
      w', st.diags⟩ := by
  induction ps generalizing st with
  | nil =>
      refine ⟨st.mean, st.stdev, st.warnings, ?_⟩
      have hid : st.cohort.map
          (fun sr => (sr.1, foldStatuses (fun q => statusFor st.cohort q sr.2) [] sr.2))
          = st.cohort := by
        have he : (fun (sr : String × SampleData) =>
            (sr.1, foldStatuses (fun q => statusFor st.cohort q sr.2) [] sr.2)) = id := rfl
        rw [he, List.map_id]
      rw [hid]
      cases st
      rfl
  | cons p ps ih =>
      have hallp : ∀ sr ∈ st.cohort, (lookupKey sr.2.metrics p).isSome :=
        fun sr h => hall sr h p (List.mem_cons_self _ _)
      have hstep := outlierStep_ok_char st p hallp hn
      have hall1 : ∀ sr ∈ st.cohort.map (fun sr => (sr.1,
          updRecord (Lmean (gatherVals st.cohort p)) (Lstdev (gatherVals st.cohort p)) p sr.2)),
          ∀ q ∈ ps, (lookupKey sr.2.metrics q).isSome := by
        intro sr hsr q hq
        obtain ⟨x, hx, hxe⟩ := List.mem_map.mp hsr
        subst hxe
        exact hall x hx q (List.mem_cons_of_mem _ hq)
      have hn1 : 2 ≤ (st.cohort.map (fun sr => (sr.1,
          updRecord (Lmean (gatherVals st.cohort p)) (Lstdev (gatherVals st.cohort p)) p sr.2))).length := by
        simpa using hn
      obtain ⟨m', s', w', hfold⟩ := ih
        ⟨Lmean (gatherVals st.cohort p), Lstdev (gatherVals st.cohort p),
         st.cohort.map (fun sr => (sr.1,
           updRecord (Lmean (gatherVals st.cohort p)) (Lstdev (gatherVals st.cohort p)) p sr.2)),
         setKey st.warnings (pyLowerUnderscore p)
           (if (Lmean (gatherVals st.cohort p) : ℝ) - 2 * Lstdev (gatherVals st.cohort p) < 0
            then true else false),
         st.diags⟩ hall1 hn1
      dsimp only at hfold
      refine ⟨m', s', w', ?_⟩
      simp only [outlierFold, hstep]
      rw [hfold]
      rw [map_fold_statuses_step st.cohort _ _ p ps rfl rfl]

theorem find_outliers_ok_char (cohort : List (String × SampleData))
    (hall : ∀ sr ∈ cohort, ∀ p ∈ outlierPropertyList, (lookupKey sr.2.metrics p).isSome)
    (hn : 2 ≤ cohort.length) :
    ∃ w, find_outliers cohort = .ok
      (cohort.map (fun sr => (sr.1,
        foldStatuses (fun q => statusFor cohort q sr.2) outlierPropertyList sr.2)), w, []) := by
  obtain ⟨m', s', w', hfold⟩ :=
    outlierFold_ok_char outlierPropertyList ⟨0, 0, cohort, [], []⟩ hall hn
  dsimp only at hfold
  exact ⟨w', by simp only [find_outliers, hfold]⟩

theorem foldl_setKey_congr {α : Type} (ps : List String) (acc : List (String × α))
    (g₁ g₂ : String → α) (h : ∀ q ∈ ps, g₁ q = g₂ q) :
    ps.foldl (fun a q => setKey a q (g₁ q)) acc = ps.foldl (fun a q => setKey a q (g₂ q)) acc := by
  induction ps generalizing acc with
  | nil => rfl
  | cons q qs ih =>
      simp only [List.foldl_cons]
      rw [h q (List.mem_cons_self _ _)]
      exact ih _ (fun x hx => h x (List.mem_cons_of_mem _ hx))

theorem outlierStep_ok_inv (st : OutlierState) (p : String) (st' : OutlierState)
    (h : outlierStep st p = .ok st') :
    (∀ sr ∈ st.cohort, (lookupKey sr.2.metrics p).isSome) ∧
      ∃ m s, st'.cohort = st.cohort.map (fun sr => (sr.1, updRecord m s p sr.2)) ∧
        (∀ x ∈ st.diags, x ∈ st'.diags) := by
  unfold outlierStep at h
  cases hg : gather st.cohort p with
  | error e => rw [hg] at h; cases h
  | ok reads =>
      rw [hg] at h
      dsimp only at h
      obtain ⟨hall, -⟩ := gather_ok_inv _ _ _ hg
      refine ⟨hall, ?_⟩
      cases hcm : classifyMetric (if reads.length = 0 then st.mean else Lmean reads)
          (if reads.length < 2 then st.stdev else Lstdev reads) p st.cohort with
      | error e => rw [hcm] at h; cases h
      | ok c1 =>
          rw [hcm] at h
          cases h
          obtain ⟨-, hc1⟩ := classifyMetric_ok_inv _ _ _ _ _ hcm
          refine ⟨_, _, hc1, ?_⟩
          intro x hx
          dsimp only
          split
          · exact List.mem_append_left _ hx
          · exact hx

theorem outlierFold_ok_inv (ps : List String) (hnd : ps.Nodup) (st st' : OutlierState)
    (h : outlierFold st ps = .ok st') :
    (∀ sr ∈ st.cohort, ∀ p ∈ ps, (lookupKey sr.2.metrics p).isSome) ∧
      ∃ g : String → SampleData → String,
        (∀ q r, g q r = "pass" ∨ g q r = "fail") ∧
        st'.cohort = st.cohort.map (fun sr => (sr.1, foldStatuses (fun q => g q sr.2) ps sr.2)) := by
  induction ps generalizing st with
  | nil =>
      simp only [outlierFold] at h
      cases h
      refine ⟨by simp, fun _ _ => "pass", fun _ _ => Or.inl rfl, ?_⟩
      have he : (fun (sr : String × SampleData) =>
          (sr.1, foldStatuses (fun q => "pass") [] sr.2)) = id := rfl
      rw [he, List.map_id]
  | cons p ps ih =>
      simp only [outlierFold] at h
      cases hs : outlierStep st p with
      | error e => rw [hs] at h; cases h
      | ok st1 =>
          rw [hs] at h
          obtain ⟨hallp, m, s, hc1, -⟩ := outlierStep_ok_inv st p st1 hs
          obtain ⟨hall2, g', hg', hc'⟩ := ih (List.nodup_cons.mp hnd).2 st1 h
          have hnp : p ∉ ps := (List.nodup_cons.mp hnd).1
          constructor
          · intro sr hsr q hq
            rcases List.mem_cons.mp hq with he | hm
            · subst he; exact hallp sr hsr
            · have : (sr.1, updRecord m s p sr.2) ∈ st1.cohort := by
                rw [hc1]; exact List.mem_map_of_mem _ hsr
              have := hall2 _ this q hm
              simpa [updRecord] using this
          · refine ⟨fun q r => if q = p then classifyStatus m s ((lookupKey r.metrics p).getD 0)
              else g' q (updRecord m s p r), ?_, ?_⟩
            · intro q r
              by_cases hq : q = p
              · simp only [hq, if_pos rfl]
                exact classifyStatus_pass_or_fail _ _ _
              · simp only [if_neg hq]
                exact hg' q _
            · rw [hc', hc1, List.map_map]
              apply List.map_congr_left
              intro sr _
              simp only [Function.comp, Prod.mk.injEq]
              refine ⟨trivial, ?_⟩
              have hfc : ps.foldl (fun acc q => setKey acc q
                    (if q = p then classifyStatus m s ((lookupKey sr.2.metrics p).getD 0)
                     else g' q (updRecord m s p sr.2)))
                    (setKey sr.2.statuses p (classifyStatus m s ((lookupKey sr.2.metrics p).getD 0)))
                  = ps.foldl (fun acc q => setKey acc q (g' q (updRecord m s p sr.2)))
                    (setKey sr.2.statuses p (classifyStatus m s ((lookupKey sr.2.metrics p).getD 0))) :=
                foldl_setKey_congr _ _ _ _
                  (fun q hq => if_neg (fun (e : q = p) => hnp (e ▸ hq)))
              simp only [foldStatuses, List.foldl_cons, if_pos, eq_self_iff_true, if_true]
              rw [hfc]
              rfl

theorem find_outliers_ok_inv (cohort c' : List (String × SampleData))
    (w : List (String × Bool)) (d : List String)
    (h : find_outliers cohort = .ok (c', w, d)) :
    (∀ sr ∈ cohort, ∀ p ∈ outlierPropertyList, (lookupKey sr.2.metrics p).isSome) ∧
      ∃ g : String → SampleData → String,
        (∀ q r, g q r = "pass" ∨ g q r = "fail") ∧
        c' = cohort.map (fun sr => (sr.1,
          foldStatuses (fun q => g q sr.2) outlierPropertyList sr.2)) := by
  unfold find_outliers at h
  cases hf : outlierFold ⟨0, 0, cohort, [], []⟩ outlierPropertyList with
  | error e => rw [hf] at h; cases h
  | ok st =>
      rw [hf] at h
      cases h
      have hnd : outlierPropertyList.Nodup := by decide
      have := outlierFold_ok_inv outlierPropertyList hnd _ _ hf
      dsimp only at this
      exact this

theorem Lmean_single (v : ℚ) : Lmean [v] = v := by
  simp [Lmean]

theorem classifyStatus_self_pass (v : ℚ) : classifyStatus v 0 v = "pass" := by
  apply classifyStatus_eq_pass_of_not
  intro hc
  rcases hc with hc | hc <;> simp at hc

theorem outlierFold_single (ps : List String) (hnd : ps.Nodup) (s : String)
    (r : SampleData) (hall : ∀ p ∈ ps, (lookupKey r.metrics p).isSome)
    (m₀ : ℚ) (w : List (String × Bool)) (d : List String) :
    ∃ m' r' w' d', outlierFold ⟨m₀, 0, [(s, r)], w, d⟩ ps = .ok ⟨m', 0, [(s, r')], w', d'⟩ ∧
      r'.metrics = r.metrics ∧
      (∀ p ∈ ps, lookupKey r'.statuses p = some "pass") ∧
      (∀ p, p ∉ ps → lookupKey r'.statuses p = lookupKey r.statuses p) ∧
      (∀ x ∈ d, x ∈ d') ∧
      (ps ≠ [] → "Not enough data is available to calculate mean and stdev!" ∈ d') := by
  induction ps generalizing r m₀ w d with
  | nil =>
      exact ⟨m₀, r, w, d, rfl, rfl, by simp, fun p _ => rfl, fun x hx => hx, by simp⟩
  | cons p ps ih =>
      obtain ⟨v, hv⟩ := Option.isSome_iff_exists.mp (hall p (List.mem_cons_self _ _))
      have hgather : gather [(s, r)] p = .ok [v] := by simp [gather, hv]
      have hpass : classifyStatus (Lmean [v]) 0 v = "pass" := by
        rw [Lmean_single]; exact classifyStatus_self_pass v
      have hcm : classifyMetric (Lmean [v]) (0 : ℝ) p [(s, r)] =
          .ok [(s, {r with statuses := setKey r.statuses p "pass"})] := by
        rw [classifyMetric_ok_of_all _ _ _ _ (by simp [hv])]
        simp [updRecord, hv, hpass]
      have hstep : outlierStep ⟨m₀, 0, [(s, r)], w, d⟩ p =
          .ok ⟨Lmean [v], 0, [(s, {r with statuses := setKey r.statuses p "pass"})],
            setKey w (pyLowerUnderscore p)
              (if (Lmean [v] : ℝ) - 2 * 0 < 0 then true else false),
            d ++ ["Not enough data is available to calculate mean and stdev!"]⟩ := by
        simp only [outlierStep, hgather]
        norm_num [hcm]
      have hall1 : ∀ q ∈ ps,
          (lookupKey ({r with statuses := setKey r.statuses p "pass"} : SampleData).metrics q).isSome :=
        fun q hq => hall q (List.mem_cons_of_mem _ hq)
      obtain ⟨m', r'', w', d', heq, hmet, hpassAll, hother, hdmono, -⟩ :=
        ih (List.nodup_cons.mp hnd).2 _ hall1 (Lmean [v])
          (setKey w (pyLowerUnderscore p)
            (if (Lmean [v] : ℝ) - 2 * 0 < 0 then true else false))
          (d ++ ["Not enough data is available to calculate mean and stdev!"])
      have hnp : p ∉ ps := (List.nodup_cons.mp hnd).1
      refine ⟨m', r'', w', d', ?_, by rw [hmet], ?_, ?_, ?_, ?_⟩
      · simp only [outlierFold, hstep]
        exact heq
      · intro q hq
        rcases List.mem_cons.mp hq with he | hm
        · subst he
          rw [hother q hnp]
          exact lookupKey_setKey_self _ _ _
        · exact hpassAll q hm
      · intro q hq
        have hq2 : q ∉ ps := fun hin => hq (List.mem_cons_of_mem _ hin)
        have hq1 : q ≠ p := fun e => hq (e ▸ List.mem_cons_self _ _)
        rw [hother q hq2]
        exact lookupKey_setKey_ne _ _ _ _ hq1
      · exact fun x hx => hdmono x (List.mem_append_left _ hx)
      · intro _
        exact hdmono _ (List.mem_append_right _ (List.mem_singleton.mpr rfl))

theorem find_outliers_single (s : String) (r : SampleData)
    (hall : ∀ p ∈ outlierPropertyList, (lookupKey r.metrics p).isSome) :
    ∃ r' w d, find_outliers [(s, r)] = .ok ([(s, r')], w, d) ∧ r'.metrics = r.metrics ∧
      (∀ p ∈ outlierPropertyList, lookupKey r'.statuses p = some "pass") ∧
      (∀ p, p ∉ outlierPropertyList → lookupKey r'.statuses p = lookupKey r.statuses p) ∧
      "Not enough data is available to calculate mean and stdev!" ∈ d := by
  obtain ⟨m', r', w', d', heq, hmet, hpass, hother, -, hmsg⟩ :=
    outlierFold_single outlierPropertyList (by decide) s r hall 0 [] []
  refine ⟨r', w', d', ?_, hmet, hpass, hother, hmsg (by decide)⟩
  simp only [find_outliers, heq]

theorem Lstdev_nonneg (xs : List ℚ) : 0 ≤ Lstdev xs := Real.sqrt_nonneg _

/-! ## Claim theorems -/

/-- Claim C1: for every cohort of at least two samples and every metric in
the outlier-detection metric list, a sample's value is classified `fail` iff
it is strictly greater than `mean + 2 * stdev` or strictly less than
`mean - 2 * stdev` of that metric's values across the cohort (with `Lmean`
the arithmetic mean and `Lstdev` the Bessel-corrected sample standard
deviation); a value not outside the band — in particular one exactly equal
to either bound — is classified `pass`. -/
theorem find_outliers_fail_iff (cohort c' : List (String × SampleData))
    (w : List (String × Bool)) (d : List String)
    (hok : find_outliers cohort = .ok (c', w, d))
    (hn : 2 ≤ cohort.length)
    (i : Nat) (hi : i < cohort.length) (hi' : i < c'.length)
    (p : String) (hp : p ∈ outlierPropertyList)
    (v : ℚ) (hv : lookupKey ((cohort.get ⟨i, hi⟩).2).metrics p = some v) :
    (lookupKey ((c'.get ⟨i, hi'⟩).2).statuses p = some "fail" ↔
      ((v : ℝ) > (Lmean (gatherVals cohort p) : ℝ) + 2 * Lstdev (gatherVals cohort p) ∨
       (v : ℝ) < (Lmean (gatherVals cohort p) : ℝ) - 2 * Lstdev (gatherVals cohort p))) ∧
    (¬((v : ℝ) > (Lmean (gatherVals cohort p) : ℝ) + 2 * Lstdev (gatherVals cohort p) ∨
       (v : ℝ) < (Lmean (gatherVals cohort p) : ℝ) - 2 * Lstdev (gatherVals cohort p)) →
      lookupKey ((c'.get ⟨i, hi'⟩).2).statuses p = some "pass") ∧
    (((v : ℝ) = (Lmean (gatherVals cohort p) : ℝ) + 2 * Lstdev (gatherVals cohort p) ∨
      (v : ℝ) = (Lmean (gatherVals cohort p) : ℝ) - 2 * Lstdev (gatherVals cohort p)) →
      lookupKey ((c'.get ⟨i, hi'⟩).2).statuses p = some "pass") := by
  obtain ⟨hall, -⟩ := find_outliers_ok_inv cohort c' w d hok
  obtain ⟨w2, hchar⟩ := find_outliers_ok_char cohort hall hn
  rw [hok] at hchar
  have hpair := Except.ok.inj hchar
  have hc : c' = cohort.map (fun sr => (sr.1,
      foldStatuses (fun q => statusFor cohort q sr.2) outlierPropertyList sr.2)) :=
    congrArg Prod.fst hpair
  have hget : (c'.get ⟨i, hi'⟩).2 =
      foldStatuses (fun q => statusFor cohort q (cohort.get ⟨i, hi⟩).2)
        outlierPropertyList (cohort.get ⟨i, hi⟩).2 := by
    have : c'.get ⟨i, hi'⟩ = ((cohort.get ⟨i, hi⟩).1,
        foldStatuses (fun q => statusFor cohort q (cohort.get ⟨i, hi⟩).2)
          outlierPropertyList (cohort.get ⟨i, hi⟩).2) := by
      simp only [hc, List.get_eq_getElem, List.getElem_map]
    rw [this]
  have hlook : lookupKey ((c'.get ⟨i, hi'⟩).2).statuses p =
      some (statusFor cohort p (cohort.get ⟨i, hi⟩).2) := by
    rw [hget]
    simp only [foldStatuses]
    exact lookupKey_foldl_setKey_mem _ _ _ _ hp (by decide)
  have hsf : statusFor cohort p (cohort.get ⟨i, hi⟩).2 =
      classifyStatus (Lmean (gatherVals cohort p)) (Lstdev (gatherVals cohort p)) v := by
    unfold statusFor
    rw [hv]
    rfl
  refine ⟨?_, ?_, ?_⟩
  · simp only [hlook, hsf, Option.some.injEq]
    exact classifyStatus_eq_fail_iff _ _ _
  · intro hnc
    rw [hlook, hsf, classifyStatus_eq_pass_of_not _ _ _ hnc]
  · intro heq
    rw [hlook, hsf, classifyStatus_eq_pass_of_not]
    intro hcc
    rcases heq with he | he <;> rcases hcc with hcc | hcc <;> rw [he] at hcc <;>
      linarith [Lstdev_nonneg (gatherVals cohort p)]

/-- Witness for C1: on the concrete two-sample cohort `pairCohort` (all
`total reads` values 10, so the band degenerates to the point 10), the value
10 is not outside the band and is classified `pass`. -/
theorem find_outliers_fail_iff_witness :
    ∃ c' w d, find_outliers pairCohort = .ok (c', w, d) ∧
      ∃ hlen : 0 < c'.length,
        lookupKey ((c'.get ⟨0, hlen⟩).2).statuses "total reads" = some "pass" := by
  obtain ⟨w2, hchar⟩ := find_outliers_ok_char pairCohort (by decide) (by decide)
  have hlen : 0 < (pairCohort.map (fun sr => (sr.1,
      foldStatuses (fun q => statusFor pairCohort q sr.2) outlierPropertyList sr.2))).length := by
    simp [pairCohort]
  refine ⟨_, w2, [], hchar, hlen, ?_⟩
  have hg : gatherVals pairCohort "total reads" = [10, 10] := rfl
  have hσ : Lstdev (gatherVals pairCohort "total reads") = 0 := by
    unfold Lstdev
    have hvar : sampleVariance (gatherVals pairCohort "total reads") = 0 := by
      rw [hg]
      norm_num [sampleVariance, Lmean]
    rw [hvar]
    simp
  have hμ : Lmean (gatherVals pairCohort "total reads") = 10 := by
    rw [hg]
    norm_num [Lmean]
  have h := find_outliers_fail_iff pairCohort _ w2 [] hchar (by decide) 0 (by decide) hlen
    "total reads" (by decide) 10 (by decide)
  refine h.2.1 ?_
  rw [hμ, hσ]
  push_cast
  norm_num

theorem foldStatuses_metrics (g : String → String) (ps : List String) (r : SampleData) :
    (foldStatuses g ps r).metrics = r.metrics := rfl

/-- Claim C5 (amended): after outlier detection, every sample (with an
initially empty statuses dict, as the parser produces) has exactly one
pass/fail status for every metric of the eight-metric outlier list — the
nine required metrics minus `target size`, which `find_outliers` skips. -/
theorem find_outliers_unique_status (cohort c' : List (String × SampleData))
    (w : List (String × Bool)) (d : List String)
    (hok : find_outliers cohort = .ok (c', w, d))
    (i : Nat) (hi : i < cohort.length) (hi' : i < c'.length)
    (hst : ((cohort.get ⟨i, hi⟩).2).statuses = [])
    (p : String) (hp : p ∈ outlierPropertyList) :
    countKey ((c'.get ⟨i, hi'⟩).2).statuses p = 1 ∧
      (lookupKey ((c'.get ⟨i, hi'⟩).2).statuses p = some "pass" ∨
       lookupKey ((c'.get ⟨i, hi'⟩).2).statuses p = some "fail") := by
  obtain ⟨-, g, hg, hc⟩ := find_outliers_ok_inv cohort c' w d hok
  have hget : (c'.get ⟨i, hi'⟩).2 =
      foldStatuses (fun q => g q (cohort.get ⟨i, hi⟩).2) outlierPropertyList
        (cohort.get ⟨i, hi⟩).2 := by
    have : c'.get ⟨i, hi'⟩ = ((cohort.get ⟨i, hi⟩).1,
        foldStatuses (fun q => g q (cohort.get ⟨i, hi⟩).2) outlierPropertyList
          (cohort.get ⟨i, hi⟩).2) := by
      simp only [hc, List.get_eq_getElem, List.getElem_map]
    rw [this]
  constructor
  · rw [hget]
    simp only [foldStatuses, hst]
    have h0 : countKey ([] : List (String × String)) p ≤ 1 := by simp [countKey]
    exact (countKey_foldl_setKey _ _ _ _ h0).2 (Or.inl hp)
  · rw [hget]
    simp only [foldStatuses]
    rw [lookupKey_foldl_setKey_mem _ _ _ _ hp (by decide)]
    rcases hg p (cohort.get ⟨i, hi⟩).2 with hx | hx
    · exact Or.inl (by rw [hx])
    · exact Or.inr (by rw [hx])

/-- Witness for C5 (amended): on `pairCohort`, sample 0 has exactly one
status for `total reads`. -/
theorem find_outliers_unique_status_witness :
    ∃ c' w d, find_outliers pairCohort = .ok (c', w, d) ∧
      ∃ hlen : 0 < c'.length,
        countKey ((c'.get ⟨0, hlen⟩).2).statuses "total reads" = 1 := by
  obtain ⟨w2, hchar⟩ := find_outliers_ok_char pairCohort (by decide) (by decide)
  have hlen : 0 < (pairCohort.map (fun sr => (sr.1,
      foldStatuses (fun q => statusFor pairCohort q sr.2) outlierPropertyList sr.2))).length := by
    simp [pairCohort]
  refine ⟨_, w2, [], hchar, hlen, ?_⟩
  exact (find_outliers_unique_status pairCohort _ w2 [] hchar 0 (by decide) hlen rfl
    "total reads" (by decide)).1

/-- Counterexample to C5 as stated: the claim's metric set includes
`target size`, but `find_outliers` iterates only the eight-metric list, so a
sample with a numeric `target size` value receives no status for it. -/
theorem find_outliers_no_target_size_status :
    ∃ c' w d, find_outliers pairCohort = .ok (c', w, d) ∧
      ∃ hlen : 0 < c'.length,
        lookupKey ((c'.get ⟨0, hlen⟩).2).metrics "target size" = some 100 ∧
        lookupKey ((c'.get ⟨0, hlen⟩).2).statuses "target size" = none := by
  obtain ⟨w2, hchar⟩ := find_outliers_ok_char pairCohort (by decide) (by decide)
  have hlen : 0 < (pairCohort.map (fun sr => (sr.1,
      foldStatuses (fun q => statusFor pairCohort q sr.2) outlierPropertyList sr.2))).length := by
    simp [pairCohort]
  refine ⟨_, w2, [], hchar, hlen, ?_, ?_⟩
  · have hget : ((pairCohort.map (fun sr => (sr.1,
        foldStatuses (fun q => statusFor pairCohort q sr.2) outlierPropertyList sr.2))).get
          ⟨0, hlen⟩).2 =
        foldStatuses (fun q => statusFor pairCohort q fullRecord) outlierPropertyList
          fullRecord := by
      simp [pairCohort, List.get_eq_getElem]
    rw [hget, foldStatuses_metrics]
    rfl
  · have hget : ((pairCohort.map (fun sr => (sr.1,
        foldStatuses (fun q => statusFor pairCohort q sr.2) outlierPropertyList sr.2))).get
          ⟨0, hlen⟩).2 =
        foldStatuses (fun q => statusFor pairCohort q fullRecord) outlierPropertyList
          fullRecord := by
      simp [pairCohort, List.get_eq_getElem]
    rw [hget]
    simp only [foldStatuses]
    rw [lookupKey_foldl_setKey_not_mem _ _ _ _ (by decide)]
    rfl

/-- Claim C6 (amended): for a single-sample cohort, `statistics.mean`
succeeds before `statistics.stdev` raises — so the mean used is the sample's
own value (not 0) while stdev stays 0 — hence every metric of the outlier
list classifies `pass`, and the insufficiency is surfaced as the logged
warning, with `find_outliers` still returning normally. -/
theorem find_outliers_single_sample (s : String) (r : SampleData)
    (hall : ∀ p ∈ outlierPropertyList, (lookupKey r.metrics p).isSome) :
    ∃ r' w d, find_outliers [(s, r)] = .ok ([(s, r')], w, d) ∧
      (∀ p ∈ outlierPropertyList, lookupKey r'.statuses p = some "pass") ∧
      "Not enough data is available to calculate mean and stdev!" ∈ d := by
  obtain ⟨r', w, d, heq, -, hpass, -, hmsg⟩ := find_outliers_single s r hall
  exact ⟨r', w, d, heq, hpass, hmsg⟩

/-- Witness for C6 (amended) on the concrete single-sample cohort. -/
theorem find_outliers_single_sample_witness :
    ∃ r' w d, find_outliers [("S", fullRecord)] = .ok ([("S", r')], w, d) ∧
      lookupKey r'.statuses "total reads" = some "pass" ∧
      "Not enough data is available to calculate mean and stdev!" ∈ d := by
  obtain ⟨r', w, d, heq, hpass, hmsg⟩ :=
    find_outliers_single_sample "S" fullRecord (by decide)
  exact ⟨r', w, d, heq, hpass "total reads" (by decide), hmsg⟩

/-- Counterexample to C6 as stated: with one sample of value 10 the code
classifies `pass` for `total reads`, while the claimed mean-0/stdev-0 rule
classifies 10 as `fail` (10 > 0 + 2·0): the code does not treat the mean as
0 for a one-sample cohort. -/
theorem find_outliers_single_not_zero_mean :
    ∃ r' w d, find_outliers [("S", fullRecord)] = .ok ([("S", r')], w, d) ∧
      lookupKey r'.statuses "total reads" = some "pass" ∧
      classifyStatus 0 0 10 = "fail" := by
  obtain ⟨r', w, d, heq, -, hpass, -, -⟩ := find_outliers_single "S" fullRecord (by decide)
  refine ⟨r', w, d, heq, hpass "total reads" (by decide), ?_⟩
  have hcond : ((10 : ℚ) : ℝ) > ((0 : ℚ) : ℝ) + 2 * (0 : ℝ) ∨
      ((10 : ℚ) : ℝ) < ((0 : ℚ) : ℝ) - 2 * (0 : ℝ) := by
    left
    push_cast
    norm_num
  unfold classifyStatus
  exact if_pos hcond

/-- Claim C9 (code bug): a sample missing a required outlier metric makes
`find_outliers` raise `KeyError`: the run aborts instead of continuing with
a partial record through outlier detection. -/
theorem find_outliers_missing_metric_raises (cohort : List (String × SampleData))
    (h : ∃ sr ∈ cohort, ∃ p ∈ outlierPropertyList, lookupKey sr.2.metrics p = none) :
    ∃ e, find_outliers cohort = .error e := by
  cases hf : find_outliers cohort with
  | error e => exact ⟨e, rfl⟩
  | ok out =>
      obtain ⟨c', w, d⟩ := out
      obtain ⟨hall, -⟩ := find_outliers_ok_inv cohort c' w d hf
      obtain ⟨sr, hsr, p, hp, hnone⟩ := h
      have hsome := hall sr hsr p hp
      rw [hnone] at hsome
      simp at hsome

/-- Witness for C9: the concrete one-sample cohort whose record lacks
`insert mean` makes `find_outliers` fail. -/
theorem find_outliers_missing_metric_raises_witness :
    ∃ e, find_outliers [("S", missingInsertMeanRecord)] = .error e :=
  find_outliers_missing_metric_raises [("S", missingInsertMeanRecord)]
    ⟨("S", missingInsertMeanRecord), by decide, "insert mean", by decide, by decide⟩

theorem parseFragment_ok (s : String) (st : SampleData × List (String × String))
    (hOK : fragmentOK s = true) : ∃ st', parseFragment st s = .ok st' := by
  unfold fragmentOK at hOK
  unfold parseFragment
  set prop := removeAll '"' (removeAll '\x7b' ((pySplit ':' s).headD "")) with hpropdef
  by_cases h1 : prop ∈ propertyList
  · simp only [if_pos h1] at hOK ⊢
    cases hp1 : (pySplit ':' s)[1]? with
    | none => simp only [hp1] at hOK; cases hOK
    | some raw =>
        simp only [hp1] at hOK ⊢
        by_cases hdot : pyContains (removeAll '"' raw) '.'
        · simp only [if_pos hdot] at hOK ⊢
          cases hf : pyFloat (removeAll '"' raw) with
          | none => rw [hf] at hOK; simp at hOK
          | some q => simp only [hf]; exact ⟨_, rfl⟩
        · simp only [if_neg hdot] at hOK ⊢
          cases hf : pyInt (removeAll '"' raw) with
          | none => rw [hf] at hOK; simp at hOK
          | some n => simp only [hf]; exact ⟨_, rfl⟩
  · simp only [if_neg h1] at hOK ⊢
    by_cases hl : prop = "library"
    · have hm : prop ∈ identityKeys := by rw [hl]; decide
      rw [if_pos hm] at hOK
      obtain ⟨raw, hp1⟩ := Option.isSome_iff_exists.mp hOK
      refine ⟨(st.1, setKey st.2 "library" (removeAll '"' raw)), ?_⟩
      rw [if_pos hl, hp1]
    · simp only [if_neg hl]
      by_cases hr : prop = "run name"
      · have hm : prop ∈ identityKeys := by rw [hr]; decide
        rw [if_pos hm] at hOK
        obtain ⟨raw, hp1⟩ := Option.isSome_iff_exists.mp hOK
        refine ⟨(st.1, setKey st.2 "run name" (removeAll '"' raw)), ?_⟩
        rw [if_pos hr, hp1]
      · simp only [if_neg hr]
        by_cases hb : prop = "barcode"
        · have hm : prop ∈ identityKeys := by rw [hb]; decide
          rw [if_pos hm] at hOK
          obtain ⟨raw, hp1⟩ := Option.isSome_iff_exists.mp hOK
          refine ⟨(st.1, setKey st.2 "index" (removeAll '"' raw)), ?_⟩
          rw [if_pos hb, hp1]
        · simp only [if_neg hb]
          by_cases hg : prop = "group id"
          · have hm : prop ∈ identityKeys := by rw [hg]; decide
            rw [if_pos hm] at hOK
            obtain ⟨raw, hp1⟩ := Option.isSome_iff_exists.mp hOK
            refine ⟨(st.1, setKey st.2 "group id" (removeAll '"' raw)), ?_⟩
            rw [if_pos hg, hp1]
          · simp only [if_neg hg]
            by_cases hla : prop = "lane"
            · have hm : prop ∈ identityKeys := by rw [hla]; decide
              rw [if_pos hm] at hOK
              obtain ⟨raw, hp1⟩ := Option.isSome_iff_exists.mp hOK
              refine ⟨(st.1, setKey st.2 "lane" raw), ?_⟩
              rw [if_pos hla, hp1]
            · simp only [if_neg hla]
              exact ⟨st, rfl⟩

theorem parseFragments_ok (frs : List String) (st : SampleData × List (String × String))
    (h : ∀ s ∈ frs, fragmentOK s = true) : ∃ st', parseFragments st frs = .ok st' := by
  induction frs generalizing st with
  | nil => exact ⟨st, rfl⟩
  | cons s rest ih =>
      obtain ⟨st1, h1⟩ := parseFragment_ok s st (h s (List.mem_cons_self _ _))
      obtain ⟨st2, h2⟩ := ih st1 (fun x hx => h x (List.mem_cons_of_mem _ hx))
      exact ⟨st2, by simp only [parseFragments, h1, h2]⟩

/-- Claim C2 (amended): the record parser terminates normally on every blob
whose fragments are well-formed in the sense of `fragmentOK`: every fragment
whose normalized key is a recognized numeric metric has a `:` and a value
the `int`/`float` conversion accepts, and every fragment whose normalized
key is a recognized identity field has a `:`.  All other fragments —
including fragments without a `:` — are skipped without error.  (As stated,
the claim is false: see the counterexample, a non-numeric value for a
recognized numeric key raises `ValueError`, and a colonless fragment whose
text normalizes to a recognized key raises `IndexError`.) -/
theorem parse_bamqc_log_total (content : String)
    (h : ∀ s ∈ pySplit ',' content, fragmentOK s = true) :
    ∃ out, parse_bamqc_log content = .ok out := by
  obtain ⟨⟨rec, info⟩, hok⟩ := parseFragments_ok (pySplit ',' content) (emptySample, []) h
  refine ⟨(rec, info, (propertyList.filter (fun p => (lookupKey rec.metrics p).isNone)).map
    (fun p => "Data for " ++ p ++ " is missing!")), ?_⟩
  simp only [parse_bamqc_log, hok]

/-- Witness for C2 (amended): a blob with a well-formed metric fragment and
a colonless junk fragment parses without error. -/
theorem parse_bamqc_log_total_witness :
    ∃ out, parse_bamqc_log "\"total reads\": 10,junk without colon" = .ok out :=
  parse_bamqc_log_total "\"total reads\": 10,junk without colon" (by decide)

/-- Counterexample to C2 as stated: the fragment `"total reads": abc` has a
non-numeric value for a recognized numeric-metric key, and the parser
aborts with a `ValueError` instead of skipping it. -/
theorem parse_bamqc_log_valueerror :
    parse_bamqc_log "\"total reads\": abc" = .error "ValueError: int" := rfl

/-- Claim C3 (amended): the parser's key normalization removes every `{` and
every `"` character from the candidate key but does NOT trim whitespace; a
metric key written directly after the split (e.g. `{"total reads"`) is
recognized and its value stored, while the same key preceded by a space
after the comma normalizes to ` total reads` and is not recognized — the
fragment is skipped entirely. -/
theorem parseFragment_key_normalization (st : SampleData × List (String × String))
    (p : String) (hp : p ∈ propertyList) :
    parseFragment st ("\x7b\"" ++ p ++ "\": 1") =
      .ok ({st.1 with metrics := setKey st.1.metrics p 1}, st.2) ∧
    parseFragment st (" \"" ++ p ++ "\": 1") = .ok st := by
  simp only [propertyList] at hp
  fin_cases hp <;> exact ⟨rfl, rfl⟩

/-- Witness for C3 (amended): the concrete key `total reads`, recognized
with a leading `{"` and skipped with a leading space. -/
theorem parseFragment_key_normalization_witness :
    parseFragment (emptySample, []) ("\x7b\"" ++ "total reads" ++ "\": 1") =
      .ok ({emptySample with metrics := setKey emptySample.metrics "total reads" 1}, []) ∧
    parseFragment (emptySample, []) (" \"" ++ "total reads" ++ "\": 1") =
      .ok (emptySample, []) :=
  parseFragment_key_normalization (emptySample, []) "total reads" (by decide)

/-- Counterexample to C3 as stated: in
`{"total reads": 1, "mapped reads": 2` the second key is preceded by a space
after the comma; since no whitespace is trimmed it is not recognized, so
`mapped reads` is absent from the parsed record (the claim predicts it is
recognized and stored as 2). -/
theorem parse_key_whitespace_counterexample :
    ∃ out, parse_bamqc_log "\x7b\"total reads\": 1, \"mapped reads\": 2" = .ok out ∧
      lookupKey out.1.metrics "total reads" = some 1 ∧
      lookupKey out.1.metrics "mapped reads" = none :=
  ⟨_, rfl, rfl, rfl⟩

theorem mapPercentRecord_lookup_ne (r : SampleData) (k : String)
    (h : k ≠ "map percent") :
    lookupKey (mapPercentRecord r).metrics k = lookupKey r.metrics k :=
  lookupKey_setKey_ne _ _ _ _ h

theorem onTargetRecord_lookup_ne (r : SampleData) (k : String)
    (h : k ≠ "on target percent") :
    lookupKey (onTargetRecord r).metrics k = lookupKey r.metrics k :=
  lookupKey_setKey_ne _ _ _ _ h

theorem coverageRecord_lookup_ne (r : SampleData) (k : String)
    (h : k ≠ "coverage") :
    lookupKey (coverageRecord r).metrics k = lookupKey r.metrics k :=
  lookupKey_setKey_ne _ _ _ _ h

theorem mapPercentPass_ok (c : List (String × SampleData))
    (hall : ∀ sr ∈ c, (lookupKey sr.2.metrics "mapped reads").isSome ∧
      (lookupKey sr.2.metrics "total reads").isSome) :
    mapPercentPass c = .ok (c.map (fun sr => (sr.1, mapPercentRecord sr.2))) := by
  induction c with
  | nil => rfl
  | cons sr rest ih =>
      obtain ⟨s, r⟩ := sr
      obtain ⟨hm, ht⟩ := hall (s, r) (List.mem_cons_self _ _)
      obtain ⟨m, hm'⟩ := Option.isSome_iff_exists.mp hm
      obtain ⟨t, ht'⟩ := Option.isSome_iff_exists.mp ht
      have ih' := ih (fun x hx => hall x (List.mem_cons_of_mem _ hx))
      simp [mapPercentPass, hm', ht', ih', mapPercentRecord]

theorem onTargetPass_ok (c : List (String × SampleData))
    (hall : ∀ sr ∈ c, (lookupKey sr.2.metrics "mapped reads").isSome ∧
      (lookupKey sr.2.metrics "reads on target").isSome) :
    onTargetPass c = .ok (c.map (fun sr => (sr.1, onTargetRecord sr.2))) := by
  induction c with
  | nil => rfl
  | cons sr rest ih =>
      obtain ⟨s, r⟩ := sr
      obtain ⟨hm, hro⟩ := hall (s, r) (List.mem_cons_self _ _)
      obtain ⟨m, hm'⟩ := Option.isSome_iff_exists.mp hm
      obtain ⟨ro, hro'⟩ := Option.isSome_iff_exists.mp hro
      have ih' := ih (fun x hx => hall x (List.mem_cons_of_mem _ hx))
      simp [onTargetPass, hm', hro', ih', onTargetRecord]

theorem coveragePass_ok (c : List (String × SampleData))
    (hall : ∀ sr ∈ c, (lookupKey sr.2.metrics "target size").isSome ∧
      (lookupKey sr.2.metrics "aligned bases").isSome ∧
      (lookupKey sr.2.metrics "on target percent").isSome ∧
      (lookupKey sr.2.metrics "reads per start point").isSome) :
    coveragePass c = .ok (c.map (fun sr => (sr.1, coverageRecord sr.2))) := by
  induction c with
  | nil => rfl
  | cons sr rest ih =>
      obtain ⟨s, r⟩ := sr
      obtain ⟨hts, hab, hot, hrp⟩ := hall (s, r) (List.mem_cons_self _ _)
      obtain ⟨ts, hts'⟩ := Option.isSome_iff_exists.mp hts
      obtain ⟨ab, hab'⟩ := Option.isSome_iff_exists.mp hab
      obtain ⟨ot, hot'⟩ := Option.isSome_iff_exists.mp hot
      obtain ⟨rp, hrp'⟩ := Option.isSome_iff_exists.mp hrp
      have ih' := ih (fun x hx => hall x (List.mem_cons_of_mem _ hx))
      simp [coveragePass, hts', hab', hot', hrp', ih', coverageRecord]

theorem computeDerivedAll_ok (c : List (String × SampleData))
    (hall : ∀ sr ∈ c, derivedReady sr.2) :
    computeDerivedAll c =
      .ok (c.map (fun sr => (sr.1, coverageRecord (onTargetRecord (mapPercentRecord sr.2))))) := by
  have h1 := mapPercentPass_ok c (fun sr h => ⟨(hall sr h).1, (hall sr h).2.1⟩)
  have h2 := onTargetPass_ok (c.map (fun sr => (sr.1, mapPercentRecord sr.2))) (by
    intro sr hsr
    obtain ⟨x, hx, hxe⟩ := List.mem_map.mp hsr
    subst hxe
    constructor
    · rw [mapPercentRecord_lookup_ne _ _ (by decide)]
      exact (hall x hx).1
    · rw [mapPercentRecord_lookup_ne _ _ (by decide)]
      exact (hall x hx).2.2.1)
  have h3 := coveragePass_ok ((c.map (fun sr => (sr.1, mapPercentRecord sr.2))).map
      (fun sr => (sr.1, onTargetRecord sr.2))) (by
    intro sr hsr
    obtain ⟨y, hy, hye⟩ := List.mem_map.mp hsr
    obtain ⟨x, hx, hxe⟩ := List.mem_map.mp hy
    subst hye hxe
    refine ⟨?_, ?_, ?_, ?_⟩
    · rw [onTargetRecord_lookup_ne _ _ (by decide), mapPercentRecord_lookup_ne _ _ (by decide)]
      exact (hall x hx).2.2.2.2.2
    · rw [onTargetRecord_lookup_ne _ _ (by decide), mapPercentRecord_lookup_ne _ _ (by decide)]
      exact (hall x hx).2.2.2.1
    · rw [show (onTargetRecord (mapPercentRecord x.2)).metrics =
        setKey (mapPercentRecord x.2).metrics "on target percent" _ from rfl]
      rw [lookupKey_setKey_self]
      rfl
    · rw [onTargetRecord_lookup_ne _ _ (by decide), mapPercentRecord_lookup_ne _ _ (by decide)]
      exact (hall x hx).2.2.2.2.1)
  simp only [computeDerivedAll, h1, h2, h3]
  simp only [List.map_map]
  rfl

theorem mapPercentRecord_lookup_self (r : SampleData) :
    lookupKey (mapPercentRecord r).metrics "map percent" =
      some (((lookupKey r.metrics "mapped reads").getD 0 /
        (if (lookupKey r.metrics "total reads").getD 0 = 0 then 1
         else (lookupKey r.metrics "total reads").getD 0)) * 100) :=
  lookupKey_setKey_self _ _ _

theorem onTargetRecord_lookup_self (r : SampleData) :
    lookupKey (onTargetRecord r).metrics "on target percent" =
      some (((lookupKey r.metrics "reads on target").getD 0 /
        (if (lookupKey r.metrics "mapped reads").getD 0 = 0 then 1
         else (lookupKey r.metrics "mapped reads").getD 0)) * 100) :=
  lookupKey_setKey_self _ _ _

theorem coverageRecord_lookup_self (r : SampleData) :
    lookupKey (coverageRecord r).metrics "coverage" =
      some ((((lookupKey r.metrics "aligned bases").getD 0 *
          ((lookupKey r.metrics "on target percent").getD 0 / 100)) /
        (if (lookupKey r.metrics "reads per start point").getD 0 = 0 then 1
         else (lookupKey r.metrics "reads per start point").getD 0)) /
        (if (lookupKey r.metrics "target size").getD 0 = 0 then 1
         else (lookupKey r.metrics "target size").getD 0)) :=
  lookupKey_setKey_self _ _ _

/-- Claim C7: the four derived-metric divisions (map percent, on-target
percent, estimated yield, coverage) each substitute 1 for a zero
denominator; the computation never raises (it returns `.ok` whenever the six
raw metrics are present, with division itself total). -/
theorem derived_zero_denominator (cohort : List (String × SampleData))
    (hall : ∀ sr ∈ cohort, derivedReady sr.2) :
    ∃ out, computeDerivedAll cohort = .ok out ∧
      ∀ i, ∀ hi : i < cohort.length, ∀ hi' : i < out.length, ∀ m t ro ab rp ts : ℚ,
        lookupKey ((cohort.get ⟨i, hi⟩).2).metrics "mapped reads" = some m →
        lookupKey ((cohort.get ⟨i, hi⟩).2).metrics "total reads" = some t →
        lookupKey ((cohort.get ⟨i, hi⟩).2).metrics "reads on target" = some ro →
        lookupKey ((cohort.get ⟨i, hi⟩).2).metrics "aligned bases" = some ab →
        lookupKey ((cohort.get ⟨i, hi⟩).2).metrics "reads per start point" = some rp →
        lookupKey ((cohort.get ⟨i, hi⟩).2).metrics "target size" = some ts →
        lookupKey ((out.get ⟨i, hi'⟩).2).metrics "map percent" =
          some ((m / (if t = 0 then 1 else t)) * 100) ∧
        lookupKey ((out.get ⟨i, hi'⟩).2).metrics "on target percent" =
          some ((ro / (if m = 0 then 1 else m)) * 100) ∧
        lookupKey ((out.get ⟨i, hi'⟩).2).metrics "coverage" =
          some (((ab * (((ro / (if m = 0 then 1 else m)) * 100) / 100)) /
            (if rp = 0 then 1 else rp)) / (if ts = 0 then 1 else ts)) := by
  refine ⟨_, computeDerivedAll_ok cohort hall, ?_⟩
  intro i hi hi' m t ro ab rp ts hm ht hro hab hrp hts
  have hget : ((cohort.map (fun sr => (sr.1,
      coverageRecord (onTargetRecord (mapPercentRecord sr.2))))).get ⟨i, hi'⟩).2 =
      coverageRecord (onTargetRecord (mapPercentRecord (cohort.get ⟨i, hi⟩).2)) := by
    simp only [List.get_eq_getElem, List.getElem_map]
  refine ⟨?_, ?_, ?_⟩
  · rw [hget, coverageRecord_lookup_ne _ _ (by decide),
      onTargetRecord_lookup_ne _ _ (by decide), mapPercentRecord_lookup_self,
      hm, ht]
    simp only [Option.getD_some]
  · rw [hget, coverageRecord_lookup_ne _ _ (by decide), onTargetRecord_lookup_self,
      mapPercentRecord_lookup_ne _ _ (by decide), mapPercentRecord_lookup_ne _ _ (by decide),
      hm, hro]
    simp only [Option.getD_some]
  · rw [hget, coverageRecord_lookup_self,
      onTargetRecord_lookup_ne _ _ (by decide), mapPercentRecord_lookup_ne _ _ (by decide),
      onTargetRecord_lookup_self,
      mapPercentRecord_lookup_ne _ _ (by decide), mapPercentRecord_lookup_ne _ _ (by decide),
      onTargetRecord_lookup_ne _ _ (by decide), mapPercentRecord_lookup_ne _ _ (by decide),
      onTargetRecord_lookup_ne _ _ (by decide), mapPercentRecord_lookup_ne _ _ (by decide),
      hm, hro, hab, hrp, hts]
    simp only [Option.getD_some]

/-- Witness for C7: on the concrete record with `mapped reads` 50 and
`total reads` 0, map percent is `50 / 1 * 100 = 5000`, not a division
error. -/
theorem derived_zero_denominator_witness :
    ∃ out, computeDerivedAll [("S", zeroTotalRecord)] = .ok out ∧
      ∃ hlen : 0 < out.length,
        lookupKey ((out.get ⟨0, hlen⟩).2).metrics "map percent" = some 5000 := by
  obtain ⟨out, hok, hall⟩ := derived_zero_denominator [("S", zeroTotalRecord)] (by decide)
  have hlen : 0 < out.length := by
    have := computeDerivedAll_ok [("S", zeroTotalRecord)] (by decide)
    rw [this] at hok
    cases hok
    decide
  obtain ⟨h1, -, -⟩ := hall 0 (by decide) hlen 50 0 10 100 2 0
    (by decide) (by decide) (by decide) (by decide) (by decide) (by decide)
  refine ⟨out, hok, hlen, ?_⟩
  rw [h1]
  norm_num

/-- Claim C8: with library, run name and lane present, the display identity
is `library_date_Lnnn`, with the group id inserted after the library when
present, where `date` is the first `_`-delimited token of the run name and
the lane token is `"L"` followed by the lane zero-padded to width 3. -/
theorem sampleIdentity_formula (m : List (String × String)) (lib rn ln : String)
    (hlib : lookupKey m "library" = some lib)
    (hrn : lookupKey m "run name" = some rn)
    (hln : lookupKey m "lane" = some ln) :
    (∀ g, lookupKey m "group id" = some g →
      sampleIdentity m =
        .ok (lib ++ "_" ++ g ++ "_" ++ (pySplit '_' rn).headD "" ++ "_" ++ ("L" ++ zfill ln 3))) ∧
    (lookupKey m "group id" = none →
      sampleIdentity m =
        .ok (lib ++ "_" ++ (pySplit '_' rn).headD "" ++ "_" ++ ("L" ++ zfill ln 3))) := by
  constructor
  · intro g hg
    simp only [sampleIdentity, hrn, hln, hg, hlib]
  · intro hg
    simp only [sampleIdentity, hrn, hln, hg, hlib]

/-- Witness for C8: `library="LIB1"`, `run_name="200101_RUN_X"`, `lane="3"`
gives `"LIB1_200101_L003"`, and with `group_id="GRP"`,
`"LIB1_GRP_200101_L003"`. -/
theorem sampleIdentity_formula_witness :
    sampleIdentity [("library", "LIB1"), ("run name", "200101_RUN_X"), ("lane", "3")] =
      .ok "LIB1_200101_L003" ∧
    sampleIdentity fullInfoGroup = .ok "LIB1_GRP_200101_L003" := by
  constructor
  · have h := sampleIdentity_formula
      [("library", "LIB1"), ("run name", "200101_RUN_X"), ("lane", "3")]
      "LIB1" "200101_RUN_X" "3" (by decide) (by decide) (by decide)
    rw [h.2 (by decide)]
    rfl
  · have h := sampleIdentity_formula fullInfoGroup "LIB1" "200101_RUN_X" "3"
      (by decide) (by decide) (by decide)
    rw [h.1 "GRP" (by decide)]
    rfl

theorem rekeyFold_ok_steps (info : List (String × List (String × String)))
    (l : List String) (st out : List (String × Nat) × List SampleData)
    (h : rekeyFold info st l = .ok out) :
    ∀ n ∈ l, ∃ st1 st2, rekeyStep info st1 n = .ok st2 := by
  induction l generalizing st with
  | nil => intro n hn; cases hn
  | cons s rest ih =>
      simp only [rekeyFold] at h
      cases hs : rekeyStep info st s with
      | error e => rw [hs] at h; cases h
      | ok st1 =>
          rw [hs] at h
          intro n hn
          rcases List.mem_cons.mp hn with he | hm
          · exact ⟨st, st1, he ▸ hs⟩
          · exact ih st1 h n hm

theorem sampleIdentity_missing_error (m : List (String × String))
    (h : lookupKey m "library" = none ∨ lookupKey m "run name" = none ∨
      lookupKey m "lane" = none) :
    ∀ v, sampleIdentity m ≠ .ok v := by
  intro v hv
  unfold sampleIdentity at hv
  rcases h with h | h | h
  · cases hrn : lookupKey m "run name" <;> rw [hrn] at hv
    · cases hv
    · cases hln : lookupKey m "lane" <;> rw [hln] at hv
      · cases hv
      · cases hg : lookupKey m "group id" <;> rw [hg] at hv <;> rw [h] at hv <;> cases hv
  · rw [h] at hv; cases hv
  · cases hrn : lookupKey m "run name" <;> rw [hrn] at hv
    · cases hv
    · rw [h] at hv; cases hv

theorem rekeyStep_error_of_missing (info : List (String × List (String × String)))
    (n : String) (st : List (String × Nat) × List SampleData)
    (h : lookupKey info n = none ∨ ∃ m, lookupKey info n = some m ∧
      (lookupKey m "library" = none ∨ lookupKey m "run name" = none ∨
       lookupKey m "lane" = none)) :
    ∀ out, rekeyStep info st n ≠ .ok out := by
  intro out hout
  unfold rekeyStep at hout
  rcases h with h | ⟨m, hm, hmiss⟩
  · rw [h] at hout; cases hout
  · simp only [hm] at hout
    cases hid : sampleIdentity m with
    | error e => rw [hid] at hout; cases hout
    | ok v => exact sampleIdentity_missing_error m hmiss v hid

theorem mapPercentPass_ok_names (c out : List (String × SampleData))
    (h : mapPercentPass c = .ok out) : out.map Prod.fst = c.map Prod.fst := by
  induction c generalizing out with
  | nil => simp only [mapPercentPass] at h; cases h; rfl
  | cons sr rest ih =>
      obtain ⟨s, r⟩ := sr
      simp only [mapPercentPass] at h
      cases h1 : lookupKey r.metrics "mapped reads" with
      | none => rw [h1] at h; cases h
      | some m =>
          rw [h1] at h
          cases h2 : lookupKey r.metrics "total reads" with
          | none => rw [h2] at h; cases h
          | some t =>
              rw [h2] at h
              cases h3 : mapPercentPass rest with
              | error e => rw [h3] at h; cases h
              | ok rest' =>
                  rw [h3] at h
                  cases h
                  simp [ih rest' h3]

theorem onTargetPass_ok_names (c out : List (String × SampleData))
    (h : onTargetPass c = .ok out) : out.map Prod.fst = c.map Prod.fst := by
  induction c generalizing out with
  | nil => simp only [onTargetPass] at h; cases h; rfl
  | cons sr rest ih =>
      obtain ⟨s, r⟩ := sr
      simp only [onTargetPass] at h
      cases h1 : lookupKey r.metrics "mapped reads" with
      | none => rw [h1] at h; cases h
      | some m =>
          rw [h1] at h
          cases h2 : lookupKey r.metrics "reads on target" with
          | none => rw [h2] at h; cases h
          | some ro =>
              rw [h2] at h
              cases h3 : onTargetPass rest with
              | error e => rw [h3] at h; cases h
              | ok rest' =>
                  rw [h3] at h
                  cases h
                  simp [ih rest' h3]

theorem coveragePass_ok_names (c out : List (String × SampleData))
    (h : coveragePass c = .ok out) : out.map Prod.fst = c.map Prod.fst := by
  induction c generalizing out with
  | nil => simp only [coveragePass] at h; cases h; rfl
  | cons sr rest ih =>
      obtain ⟨s, r⟩ := sr
      simp only [coveragePass] at h
      cases h1 : lookupKey r.metrics "target size" with
      | none => rw [h1] at h; cases h
      | some ts =>
          rw [h1] at h
          cases h2 : lookupKey r.metrics "aligned bases" with
          | none => rw [h2] at h; cases h
          | some ab =>
              rw [h2] at h
              cases h3 : lookupKey r.metrics "on target percent" with
              | none => rw [h3] at h; cases h
              | some ot =>
                  rw [h3] at h
                  cases h4 : lookupKey r.metrics "reads per start point" with
                  | none => rw [h4] at h; cases h
                  | some rp =>
                      rw [h4] at h
                      cases h5 : coveragePass rest with
                      | error e => rw [h5] at h; cases h
                      | ok rest' =>
                          rw [h5] at h
                          cases h
                          simp [ih rest' h5]

theorem computeDerivedAll_ok_names (c out : List (String × SampleData))
    (h : computeDerivedAll c = .ok out) : out.map Prod.fst = c.map Prod.fst := by
  unfold computeDerivedAll at h
  cases h1 : mapPercentPass c with
  | error e => rw [h1] at h; cases h
  | ok c1 =>
      simp only [h1] at h
      cases h2 : onTargetPass c1 with
      | error e => rw [h2] at h; cases h
      | ok c2 =>
          simp only [h2] at h
          rw [coveragePass_ok_names c2 out h, onTargetPass_ok_names c1 c2 h2,
            mapPercentPass_ok_names c c1 h1]

/-- Claim C4 (amended): a sample whose metadata lacks `library`, `run name`
or `lane` makes `bamqc_general_stats` raise a `KeyError` while building the
display identity: the whole table construction aborts (a loud, process-fatal
failure — the sample is not silently dropped, but the failure is not
sample-scoped either, and no identity-keyed table is produced). -/
theorem bamqc_general_stats_missing_identity (data : List (String × SampleData))
    (info : List (String × List (String × String))) (s : String)
    (hs : s ∈ data.map Prod.fst)
    (h : lookupKey info s = none ∨ ∃ m, lookupKey info s = some m ∧
      (lookupKey m "library" = none ∨ lookupKey m "run name" = none ∨
       lookupKey m "lane" = none)) :
    ∀ out, bamqc_general_stats data info ≠ .ok out := by
  intro out hout
  unfold bamqc_general_stats at hout
  cases hd : computeDerivedAll data with
  | error e => rw [hd] at hout; cases hout
  | ok cohort =>
      rw [hd] at hout
      dsimp only at hout
      cases hf : rekeyFold info
          (cohort.enum.map (fun x => (x.2.1, x.1)), cohort.map Prod.snd)
          (cohort.map Prod.fst) with
      | error e => rw [hf] at hout; cases hout
      | ok pr =>
          have hnames := computeDerivedAll_ok_names data cohort hd
          have hsin : s ∈ cohort.map Prod.fst := by rw [hnames]; exact hs
          obtain ⟨st1, st2, hstep⟩ := rekeyFold_ok_steps info _ _ _ hf s hsin
          exact rekeyStep_error_of_missing info s st1 h st2 hstep

/-- Witness for C4 (amended): the concrete cohort whose only sample has
metadata lacking `run name` and `lane` makes the whole method fail. -/
theorem bamqc_general_stats_missing_identity_witness :
    ∃ e, bamqc_general_stats [("S", fullRecord)] [("S", [("library", "LIB1")])] =
      .error e := by
  have h := bamqc_general_stats_missing_identity [("S", fullRecord)]
    [("S", [("library", "LIB1")])] "S" (by decide)
    (Or.inr ⟨[("library", "LIB1")], by decide, Or.inr (Or.inl (by decide))⟩)
  cases hres : bamqc_general_stats [("S", fullRecord)] [("S", [("library", "LIB1")])] with
  | error e => exact ⟨e, rfl⟩
  | ok out => exact absurd hres (h out)

/-- Counterexample to C4 as stated: with `run name` missing the run does not
continue with the sample excluded — `bamqc_general_stats` evaluates to the
uncaught `KeyError` for `run name`. -/
theorem bamqc_general_stats_missing_identity_counterexample :
    bamqc_general_stats [("S", fullRecord)] [("S", [("library", "LIB1")])] =
      .error "KeyError: run name" := rfl

theorem lookupKey_of_mem_nodup {α : Type} (l : List (String × α)) (k : String) (v : α)
    (hnd : (l.map Prod.fst).Nodup) (hmem : (k, v) ∈ l) : lookupKey l k = some v := by
  induction l with
  | nil => cases hmem
  | cons hd tl ih =>
      rcases List.mem_cons.mp hmem with he | hm
      · rw [← he]
        simp [lookupKey]
      · have hkin : k ∈ tl.map Prod.fst := by
          have := List.mem_map_of_mem Prod.fst hm
          simpa using this
        have hne : hd.1 ≠ k := by
          intro e
          exact (List.nodup_cons.mp (by simpa using hnd)).1 (e ▸ hkin)
        simp [lookupKey, hne, ih (List.nodup_cons.mp (by simpa using hnd)).2 hm]

theorem rekeyFold_invariant (info : List (String × List (String × String)))
    (l : List (String × Nat)) (sd : List (String × Nat)) (store : List SampleData)
    (hready : ∀ nr ∈ l, (∃ v, infoIdentity info nr.1 = .ok v) ∧
      (infoField info nr.1 "run name").isSome ∧ (infoField info nr.1 "index").isSome)
    (hndn : (l.map Prod.fst).Nodup)
    (hndr : (l.map Prod.snd).Nodup)
    (hndi : (l.map (fun nr => idOf info nr.1)).Nodup)
    (hdisj : ∀ nr ∈ l, ∀ nr' ∈ l, idOf info nr.1 ≠ nr'.1)
    (hrefs : ∀ nr ∈ l, lookupKey sd nr.1 = some nr.2)
    (hbound : ∀ nr ∈ l, nr.2 < store.length) :
    ∃ sd' store', rekeyFold info (sd, store) (l.map Prod.fst) = .ok (sd', store') ∧
      store'.length = store.length ∧
      (∀ nr ∈ l, lookupKey sd' (idOf info nr.1) = some nr.2 ∧
        store'[nr.2]? = (store[nr.2]?).map
          (writeAttrs ((infoField info nr.1 "run name").getD "")
            ((infoField info nr.1 "index").getD ""))) ∧
      (∀ k, k ∉ l.map Prod.fst → (∀ nr ∈ l, k ≠ idOf info nr.1) →
        lookupKey sd' k = lookupKey sd k) ∧
      (∀ j, j ∉ l.map Prod.snd → store'[j]? = store[j]?) := by
  induction l generalizing sd store with
  | nil =>
      exact ⟨sd, store, rfl, rfl, by simp, fun k _ _ => rfl, fun j _ => rfl⟩
  | cons nr0 rest ih =>
      obtain ⟨n, ref⟩ := nr0
      obtain ⟨⟨idv, hid⟩, hrn0, hidx0⟩ := hready (n, ref) (List.mem_cons_self _ _)
      cases hm : lookupKey info n with
      | none => rw [infoIdentity, hm] at hid; cases hid
      | some m =>
          rw [infoIdentity, hm] at hid
          have hid2 : sampleIdentity m = .ok idv := hid
          have hidof : idOf info n = idv := by
            rw [idOf, infoIdentity, hm]
            simp only [hid2]
          obtain ⟨rn, hrn⟩ := Option.isSome_iff_exists.mp hrn0
          obtain ⟨idxv, hidx⟩ := Option.isSome_iff_exists.mp hidx0
          have hmrn : lookupKey m "run name" = some rn := by
            rw [infoField, hm] at hrn
            exact hrn
          have hmidx : lookupKey m "index" = some idxv := by
            rw [infoField, hm] at hidx
            exact hidx
          have hsdn : lookupKey sd n = some ref := hrefs (n, ref) (List.mem_cons_self _ _)
          have hb : ref < store.length := hbound (n, ref) (List.mem_cons_self _ _)
          have hidv_ne_n : idv ≠ n := by
            rw [← hidof]
            exact hdisj (n, ref) (List.mem_cons_self _ _) (n, ref) (List.mem_cons_self _ _)
          have hlook1 : lookupKey (delKey (setKey sd idv ref) n) idv = some ref := by
            rw [lookupKey_delKey_ne _ _ _ hidv_ne_n, lookupKey_setKey_self]
          have hstore : store[ref]? = some (store.get ⟨ref, hb⟩) := by
            rw [List.getElem?_eq_getElem hb]
            rfl
          have hstep : rekeyStep info (sd, store) n =
              .ok (delKey (setKey sd idv ref) n,
                store.set ref (writeAttrs rn idxv (store.get ⟨ref, hb⟩))) := by
            unfold rekeyStep
            simp only [hm, hid2, hsdn, hlook1, hmrn, hmidx, hstore,
              List.getElem?_set_self hb, List.set_set]
            rfl
          have hrefs1 : ∀ nr ∈ rest,
              lookupKey (delKey (setKey sd idv ref) n) nr.1 = some nr.2 := by
            intro nr hnr
            have hne_n : nr.1 ≠ n := by
              intro e
              have hmem : nr.1 ∈ rest.map Prod.fst := List.mem_map_of_mem Prod.fst hnr
              exact (List.nodup_cons.mp (by simpa using hndn)).1 (e ▸ hmem)
            have hne_id : nr.1 ≠ idv := by
              rw [← hidof]
              intro e
              exact hdisj (n, ref) (List.mem_cons_self _ _) nr
                (List.mem_cons_of_mem _ hnr) e.symm
            rw [lookupKey_delKey_ne _ _ _ hne_n, lookupKey_setKey_ne _ _ _ _ hne_id]
            exact hrefs nr (List.mem_cons_of_mem _ hnr)
          have hbound1 : ∀ nr ∈ rest, nr.2 <
              (store.set ref (writeAttrs rn idxv (store.get ⟨ref, hb⟩))).length := by
            intro nr hnr
            rw [List.length_set]
            exact hbound nr (List.mem_cons_of_mem _ hnr)
          obtain ⟨sd', store', hfold, hlen, hmain, hframeK, hframeJ⟩ :=
            ih (delKey (setKey sd idv ref) n)
              (store.set ref (writeAttrs rn idxv (store.get ⟨ref, hb⟩)))
              (fun nr hnr => hready nr (List.mem_cons_of_mem _ hnr))
              (List.nodup_cons.mp (by simpa using hndn)).2
              (List.nodup_cons.mp (by simpa using hndr)).2
              (List.nodup_cons.mp (by simpa using hndi)).2
              (fun nr hnr nr' hnr' => hdisj nr (List.mem_cons_of_mem _ hnr) nr'
                (List.mem_cons_of_mem _ hnr'))
              hrefs1 hbound1
          have hn_notin_rest : n ∉ rest.map Prod.fst :=
            (List.nodup_cons.mp (by simpa using hndn)).1
          have href_notin_rest : ref ∉ rest.map Prod.snd :=
            (List.nodup_cons.mp (by simpa using hndr)).1
          have hidv_notin_restids : ∀ nr ∈ rest, idv ≠ idOf info nr.1 := by
            intro nr hnr e
            have hmem : idOf info nr.1 ∈ rest.map (fun nr => idOf info nr.1) :=
              List.mem_map_of_mem _ hnr
            exact (List.nodup_cons.mp (by simpa [hidof] using hndi)).1 (e ▸ hmem)
          have hidv_notin_restnames : idv ∉ rest.map Prod.fst := by
            intro hmem
            obtain ⟨nr, hnr, hnre⟩ := List.mem_map.mp hmem
            have hd := hdisj (n, ref) (List.mem_cons_self _ _) nr
              (List.mem_cons_of_mem _ hnr)
            rw [hidof] at hd
            exact hd hnre.symm
          refine ⟨sd', store', ?_, ?_, ?_, ?_, ?_⟩
          · simp only [List.map_cons, rekeyFold, hstep]
            exact hfold
          · rw [hlen, List.length_set]
          · intro nr hnr
            rcases List.mem_cons.mp hnr with he | hmem
            · subst he
              constructor
              · rw [hidof, hframeK idv hidv_notin_restnames hidv_notin_restids, hlook1]
              · rw [hframeJ ref href_notin_rest, List.getElem?_set_self hb, hstore]
                have hgd1 : (infoField info (n, ref).1 "run name").getD "" = rn := by
                  rw [hrn]
                  rfl
                have hgd2 : (infoField info (n, ref).1 "index").getD "" = idxv := by
                  rw [hidx]
                  rfl
                rw [hgd1, hgd2]
                rfl
            · obtain ⟨h1, h2⟩ := hmain nr hmem
              refine ⟨h1, ?_⟩
              rw [h2, List.getElem?_set_ne]
              intro e
              have hmem2 : nr.2 ∈ rest.map Prod.snd := List.mem_map_of_mem Prod.snd hmem
              exact href_notin_rest (e ▸ hmem2)
          · intro k hk hkid
            have hk_rest : k ∉ rest.map Prod.fst := fun hmem => hk (by simp [hmem])
            have hkid_rest : ∀ nr ∈ rest, k ≠ idOf info nr.1 :=
              fun nr hnr => hkid nr (List.mem_cons_of_mem _ hnr)
            have hk_ne_n : k ≠ n := fun e => hk (by simp [e])
            have hk_ne_idv : k ≠ idv := by
              rw [← hidof]
              exact hkid (n, ref) (List.mem_cons_self _ _)
            rw [hframeK k hk_rest hkid_rest, lookupKey_delKey_ne _ _ _ hk_ne_n,
              lookupKey_setKey_ne _ _ _ _ hk_ne_idv]
          · intro j hj
            have hj_rest : j ∉ rest.map Prod.snd := fun hmem => hj (by simp [hmem])
            have hj_ne_ref : j ≠ ref := fun e => hj (by simp [e])
            rw [hframeJ j hj_rest, List.getElem?_set_ne (fun e => hj_ne_ref e.symm)]

/-- Claim C10: `stats_data = dict(self.bamqc_data)` is a shallow copy — in
the heap model both the raw sample-id-keyed map and the identity-keyed
`stats_data` map resolve to the same record reference — so the `run name`
and `index` attributes written through `stats_data` during identity
resolution appear on the very record the raw cohort mapping references: the
raw view is mutated, not left unchanged. -/
theorem bamqc_general_stats_shallow_copy (data : List (String × SampleData))
    (info : List (String × List (String × String)))
    (hder : ∀ sr ∈ data, derivedReady sr.2)
    (hready : ∀ s ∈ data.map Prod.fst, (∃ v, infoIdentity info s = .ok v) ∧
      (infoField info s "run name").isSome ∧ (infoField info s "index").isSome)
    (hndn : (data.map Prod.fst).Nodup)
    (hndi : ((data.map Prod.fst).map (fun s => idOf info s)).Nodup)
    (hdisj : ∀ s ∈ data.map Prod.fst, ∀ s' ∈ data.map Prod.fst, idOf info s ≠ s') :
    ∃ refs sd store', bamqc_general_stats data info = .ok (refs, sd, store') ∧
      ∀ i, ∀ hi : i < data.length,
        lookupKey refs ((data.get ⟨i, hi⟩).1) = some i ∧
        lookupKey sd (idOf info ((data.get ⟨i, hi⟩).1)) = some i ∧
        ∃ rec, store'[i]? = some rec ∧
          lookupKey rec.attrs "run name" = infoField info ((data.get ⟨i, hi⟩).1) "run name" ∧
          lookupKey rec.attrs "index" = infoField info ((data.get ⟨i, hi⟩).1) "index" := by
  have hd := computeDerivedAll_ok data hder
  have hnames : (data.map (fun sr => (sr.1,
      coverageRecord (onTargetRecord (mapPercentRecord sr.2))))).map Prod.fst =
      data.map Prod.fst := by
    rw [List.map_map]
    rfl
  have hgen1 : ∀ (l : List (String × SampleData)),
      ((l.enum.map (fun x => (x.2.1, x.1))).map Prod.fst) = l.map Prod.fst := by
    intro l
    conv_rhs => rw [← List.enum_map_snd l]
    rw [List.map_map, List.map_map]
    apply List.map_congr_left
    intro x _
    rfl
  have hjf : (((data.map (fun sr => (sr.1,
      coverageRecord (onTargetRecord (mapPercentRecord sr.2))))).enum.map
        (fun x => (x.2.1, x.1))).map Prod.fst) =
      (data.map (fun sr => (sr.1,
        coverageRecord (onTargetRecord (mapPercentRecord sr.2))))).map Prod.fst :=
    hgen1 _
  have hjs : (((data.map (fun sr => (sr.1,
      coverageRecord (onTargetRecord (mapPercentRecord sr.2))))).enum.map
        (fun x => (x.2.1, x.1))).map Prod.snd) =
      List.range (data.map (fun sr => (sr.1,
        coverageRecord (onTargetRecord (mapPercentRecord sr.2))))).length := by
    rw [List.map_map]
    exact List.enum_map_fst _

  have hjnames : (((data.map (fun sr => (sr.1,
      coverageRecord (onTargetRecord (mapPercentRecord sr.2))))).enum.map
        (fun x => (x.2.1, x.1))).map Prod.fst) = data.map Prod.fst := hjf.trans hnames
  have hjobs_nodup : ((((data.map (fun sr => (sr.1,
      coverageRecord (onTargetRecord (mapPercentRecord sr.2))))).enum.map
        (fun x => (x.2.1, x.1))).map Prod.fst)).Nodup := by
    rw [hjnames]
    exact hndn
  have hrefs : ∀ nr ∈ ((data.map (fun sr => (sr.1,
      coverageRecord (onTargetRecord (mapPercentRecord sr.2))))).enum.map
        (fun x => (x.2.1, x.1))),
      lookupKey ((data.map (fun sr => (sr.1,
        coverageRecord (onTargetRecord (mapPercentRecord sr.2))))).enum.map
          (fun x => (x.2.1, x.1))) nr.1 = some nr.2 := by
    intro nr hnr
    exact lookupKey_of_mem_nodup _ nr.1 nr.2 hjobs_nodup hnr
  have hbound : ∀ nr ∈ ((data.map (fun sr => (sr.1,
      coverageRecord (onTargetRecord (mapPercentRecord sr.2))))).enum.map
        (fun x => (x.2.1, x.1))),
      nr.2 < ((data.map (fun sr => (sr.1,
        coverageRecord (onTargetRecord (mapPercentRecord sr.2))))).map Prod.snd).length := by
    intro nr hnr
    have hmem : nr.2 ∈ (((data.map (fun sr => (sr.1,
        coverageRecord (onTargetRecord (mapPercentRecord sr.2))))).enum.map
          (fun x => (x.2.1, x.1))).map Prod.snd) := List.mem_map_of_mem Prod.snd hnr
    rw [hjs] at hmem
    simpa using List.mem_range.mp hmem
  obtain ⟨sd', store', hfold, hlen, hmain, -, -⟩ := rekeyFold_invariant info
    ((data.map (fun sr => (sr.1,
      coverageRecord (onTargetRecord (mapPercentRecord sr.2))))).enum.map
        (fun x => (x.2.1, x.1)))
    ((data.map (fun sr => (sr.1,
      coverageRecord (onTargetRecord (mapPercentRecord sr.2))))).enum.map
        (fun x => (x.2.1, x.1)))
    ((data.map (fun sr => (sr.1,
      coverageRecord (onTargetRecord (mapPercentRecord sr.2))))).map Prod.snd)
    (by
      intro nr hnr
      have : nr.1 ∈ data.map Prod.fst := by
        rw [← hjnames]
        exact List.mem_map_of_mem Prod.fst hnr
      exact hready nr.1 this)
    hjobs_nodup
    (by rw [hjs]; exact List.nodup_range _)
    (by
      have hgen2 : ∀ (l : List (String × Nat)),
          l.map (fun nr => idOf info nr.1) = (l.map Prod.fst).map (fun s => idOf info s) := by
        intro l
        rw [List.map_map]
        apply List.map_congr_left
        intro x _
        rfl
      rw [hgen2, hjnames]
      exact hndi)
    (by
      intro nr hnr nr' hnr'
      have h1 : nr.1 ∈ data.map Prod.fst := by
        rw [← hjnames]
        exact List.mem_map_of_mem Prod.fst hnr
      have h2 : nr'.1 ∈ data.map Prod.fst := by
        rw [← hjnames]
        exact List.mem_map_of_mem Prod.fst hnr'
      exact hdisj nr.1 h1 nr'.1 h2)
    hrefs hbound
  refine ⟨((data.map (fun sr => (sr.1,
      coverageRecord (onTargetRecord (mapPercentRecord sr.2))))).enum.map
        (fun x => (x.2.1, x.1))), sd', store', ?_, ?_⟩
  · unfold bamqc_general_stats
    simp only [hd]
    rw [hjf] at hfold
    simp only [hfold]
  · intro i hi
    have hilen : i < ((data.map (fun sr => (sr.1,
        coverageRecord (onTargetRecord (mapPercentRecord sr.2))))).enum.map
          (fun x => (x.2.1, x.1))).length := by
      simpa using hi
    have hji : (((data.map (fun sr => (sr.1,
        coverageRecord (onTargetRecord (mapPercentRecord sr.2))))).enum.map
          (fun x => (x.2.1, x.1))).get ⟨i, hilen⟩) = ((data.get ⟨i, hi⟩).1, i) := by
      simp [List.get_eq_getElem, List.getElem_map, List.getElem_enum]
    have hmem : ((data.get ⟨i, hi⟩).1, i) ∈ ((data.map (fun sr => (sr.1,
        coverageRecord (onTargetRecord (mapPercentRecord sr.2))))).enum.map
          (fun x => (x.2.1, x.1))) := by
      rw [← hji]
      exact List.get_mem _ _ _
    obtain ⟨hsd, hstore⟩ := hmain ((data.get ⟨i, hi⟩).1, i) hmem
    obtain ⟨⟨v, hv⟩, hrn0, hidx0⟩ := hready ((data.get ⟨i, hi⟩).1)
      (List.mem_map_of_mem Prod.fst (List.get_mem data i hi))
    obtain ⟨rn, hrn⟩ := Option.isSome_iff_exists.mp hrn0
    obtain ⟨idxv, hidx⟩ := Option.isSome_iff_exists.mp hidx0
    have hib : i < ((data.map (fun sr => (sr.1,
        coverageRecord (onTargetRecord (mapPercentRecord sr.2))))).map Prod.snd).length := by
      simpa using hi
    refine ⟨hrefs _ hmem, hsd, ?_⟩
    rw [hstore, List.getElem?_eq_getElem hib]
    simp only [Option.map_some']
    refine ⟨_, rfl, ?_, ?_⟩
    · rw [show lookupKey (writeAttrs ((infoField info ((data.get ⟨i, hi⟩).1) "run name").getD "")
        ((infoField info ((data.get ⟨i, hi⟩).1) "index").getD "") _).attrs "run name" =
          some ((infoField info ((data.get ⟨i, hi⟩).1) "run name").getD "") from by
            rw [writeAttrs]
            rw [lookupKey_setKey_ne _ _ _ _ (by decide), lookupKey_setKey_self]]
      rw [hrn]
      rfl
    · rw [show lookupKey (writeAttrs ((infoField info ((data.get ⟨i, hi⟩).1) "run name").getD "")
        ((infoField info ((data.get ⟨i, hi⟩).1) "index").getD "") _).attrs "index" =
          some ((infoField info ((data.get ⟨i, hi⟩).1) "index").getD "") from by
            rw [writeAttrs]
            rw [lookupKey_setKey_self]]
      rw [hidx]
      rfl

/-- Witness for C10: concrete single-sample run; both the raw map and the
re-keyed map point at record 0, and the written attributes are visible on
that shared record. -/
theorem bamqc_general_stats_shallow_copy_witness :
    ∃ refs sd store' rec,
      bamqc_general_stats [("S", zeroTotalRecord)] [("S", fullInfoNoGroup)] =
        .ok (refs, sd, store') ∧
      lookupKey refs "S" = some 0 ∧
      lookupKey sd (idOf [("S", fullInfoNoGroup)] "S") = some 0 ∧
      store'[0]? = some rec ∧
      lookupKey rec.attrs "run name" = some "200101_RUN_X" ∧
      lookupKey rec.attrs "index" = some "ACGT" := by
  obtain ⟨refs, sd, store', hok, hall⟩ := bamqc_general_stats_shallow_copy
    [("S", zeroTotalRecord)] [("S", fullInfoNoGroup)]
    (by decide)
    (by
      intro s hs
      simp only [List.map_cons, List.map_nil, List.mem_singleton] at hs
      subst hs
      exact ⟨⟨"LIB1_200101_L003", rfl⟩, by decide, by decide⟩)
    (by decide)
    (by simp)
    (by
      intro s hs s' hs'
      simp only [List.map_cons, List.map_nil, List.mem_singleton] at hs hs'
      subst hs
      subst hs'
      decide)
  obtain ⟨h1, h2, rec, h3, h4, h5⟩ := hall 0 (by decide)
  refine ⟨refs, sd, store', rec, hok, h1, h2, h3, ?_, ?_⟩
  · rw [h4]
    rfl
  · rw [h5]
    rfl
